import Mathlib

/-!
# Weather API: sliding-window rate limiter and cache-aside fetch

A shallow embedding of `weather-api/main.go` (the `RateLimiter` and the rate-limit
middleware), of `weather-api/services/{cache,weather}.go` (the Redis cache wrapper and
`GetWeatherData`) and of `weather-api/handlers/weather.go` (the handler `GetWeather`),
followed by the properties proved about them.

Conventions of the embedding.

* A `time.Time` is an integer count of nanoseconds; `time.Now()` is an explicit
  argument `now` of every operation that reads the clock.
* The mutex `mu` makes `Allow` and `cleanup` atomic, so an execution of the
  limiter is a list of calls, each applied to the state left by the previous one.
* The Go map `visitors` is a finite association list with unique keys.
-/

namespace WeatherApi

/-! ## Time -/

/-! A `time.Time` is an `Int`, the nanoseconds on the clock that `time.Now()` reads; a
`time.Duration` is an `Int`, a signed count of nanoseconds. -/

/-- Largest `time.Duration`, `1<<63 - 1`. -/
def maxDuration : Int := 9223372036854775807

/-- Smallest `time.Duration`, `-1 << 63`. -/
def minDuration : Int := -9223372036854775808

/-- The method `t.Sub(u)` of package `time`: the difference `t - u`, saturated to the
range of `time.Duration` when it does not fit. -/
def timeSub (t u : Int) : Int :=
  if t - u > maxDuration then maxDuration
  else if t - u < minDuration then minDuration
  else t - u

/-! ## RateLimiter (main.go) -/

/-- The type of the field `visitors`, `map[string][]time.Time`. -/
abbrev Visitors := AList (fun _ : String => List Int)

/-- The struct `RateLimiter` without its mutex. -/
structure RateLimiter where
  visitors : Visitors
  limit : Int
  window : Int

/-- The constructor `NewRateLimiter`: an empty map. The goroutine it starts calls
`cleanup` on a ticker; those calls appear as `Call.cleanup` in an execution. -/
def NewRateLimiter (limit : Int) (window : Int) : RateLimiter :=
  { visitors := ∅, limit := limit, window := window }

/-- The filtering loop shared by `cleanup` and `Allow`:
`for _, t := range timestamps { if now.Sub(t) <= rl.window { out = append(out, t) } }`. -/
def validTimestamps (window : Int) (now : Int) (timestamps : List Int) : List Int :=
  timestamps.foldl (fun out t => if timeSub now t ≤ window then out ++ [t] else out) []

/-- One iteration of the loop of `cleanup` over the entry `(ip, timestamps)`. -/
def cleanupEntry (window : Int) (now : Int) (m : Visitors) (ip : String)
    (timestamps : List Int) : Visitors :=
  let newTimestamps := validTimestamps window now timestamps
  if newTimestamps.length = 0 then m.erase ip else m.insert ip newTimestamps

/-- The method `cleanup`, run at clock reading `now`: the loop visits every entry of the map
once, deleting or overwriting the entry it is visiting. -/
def cleanup (rl : RateLimiter) (now : Int) : RateLimiter :=
  { rl with visitors := rl.visitors.foldl (cleanupEntry rl.window now) rl.visitors }

/-- The method `Allow`, run at clock reading `now`: the returned boolean and the limiter
afterwards. A missing key reads as the nil slice. -/
def Allow (rl : RateLimiter) (now : Int) (ip : String) : Bool × RateLimiter :=
  let timestamps := (rl.visitors.lookup ip).getD []
  let valid := validTimestamps rl.window now timestamps
  if (valid.length : Int) ≥ rl.limit then (false, rl)
  else (true, { rl with visitors := rl.visitors.insert ip (valid ++ [now]) })

/-- The slice stored for `ip`, the nil slice when `ip` is not a key. -/
def stored (rl : RateLimiter) (ip : String) : List Int :=
  (rl.visitors.lookup ip).getD []

/-- One call made on a limiter, with the clock reading it takes. -/
inductive Call where
  | allow (now : Int) (ip : String)
  | cleanup (now : Int)
  deriving DecidableEq, Repr

/-- The clock reading of a call. -/
def Call.time : Call → Int
  | .allow now _ => now
  | .cleanup now => now

/-- The limiter after one call. -/
def step (rl : RateLimiter) : Call → RateLimiter
  | .allow now ip => (Allow rl now ip).2
  | .cleanup now => cleanup rl now

/-- The limiter after a list of calls, made in order. -/
def run (rl : RateLimiter) (calls : List Call) : RateLimiter :=
  calls.foldl step rl

/-- The clock readings of the `Allow(c)` calls that returned true during an execution, in
order of the calls. -/
def admitted (c : String) : RateLimiter → List Call → List Int
  | _, [] => []
  | rl, .allow now ip :: rest =>
      (if ip = c ∧ (Allow rl now ip).1 = true then [now] else [])
        ++ admitted c (Allow rl now ip).2 rest
  | rl, .cleanup now :: rest => admitted c (cleanup rl now) rest

/-- The clock never runs backwards over the calls of an execution. -/
def NonDecreasing (calls : List Call) : Prop :=
  (calls.map Call.time).Pairwise (· ≤ ·)

instance (calls : List Call) : Decidable (NonDecreasing calls) := by
  unfold NonDecreasing; infer_instance

/-- The invariant of an execution started on an empty limiter, for one client `c`: `past`
lists the clock readings of the calls of `c` admitted so far and `lo` is the current clock
reading. Every admitted reading is in the past; the admitted readings not older than a
threshold `τ` that is still inside the window are all stored; and no closed interval of the
window's length holds more than `limit` admitted readings. -/
structure Tracked (c : String) (rl : RateLimiter) (past : List Int) (lo : Int) : Prop where
  past_le : ∀ x ∈ past, x ≤ lo
  kept : ∀ τ : Int, timeSub lo τ ≤ rl.window →
    past.countP (fun x => decide (τ ≤ x)) ≤ (stored rl c).countP (fun x => decide (τ ≤ x))
  bounded : ∀ T : Int,
    (past.countP (fun a => decide (T - rl.window ≤ a ∧ a ≤ T)) : Int) ≤ rl.limit

/-- The pruning as the specification words it: discard from the front of the sequence the
timestamps older than `now - window`, and stop at the first one that is not. -/
def prefixScan (window now : Int) (timestamps : List Int) : List Int :=
  timestamps.dropWhile (fun t => decide (t < now - window))

/-- Discard the maximal prefix of expired timestamps, a timestamp being expired when the
test of the code, `now.Sub(t) <= window`, fails. -/
def dropExpiredPrefix (window now : Int) (timestamps : List Int) : List Int :=
  timestamps.dropWhile (fun t => !decide (timeSub now t ≤ window))

/-- The invariant of an execution started on an empty limiter, for all clients: every stored
sequence is in non-decreasing order and holds no timestamp later than the current clock
reading `lo`. -/
structure Chronological (rl : RateLimiter) (lo : Int) : Prop where
  sorted : ∀ ip, (stored rl ip).Pairwise (· ≤ ·)
  le_clock : ∀ ip, ∀ x ∈ stored rl ip, x ≤ lo

/-- The invariant on the lengths: every sequence in the map has at least one timestamp and
at most `limit`. -/
def WithinLimit (rl : RateLimiter) : Prop :=
  ∀ ip l, rl.visitors.lookup ip = some l → 1 ≤ l.length ∧ (l.length : Int) ≤ rl.limit

/-! ## Payload (services/weather.go) -/

/-- The struct `Day`. A `float64` is a `Float`. -/
structure Day where
  Datetime : String
  Temp : Float
  Feelslike : Float
  Humidity : Float
  Windspeed : Float
  Winddir : Float
  Pressure : Float
  Visibility : Float
  Cloudcover : Float
  Precip : Float
  Precipprob : Float
  Snow : Float
  Snowdepth : Float
  Conditions : String
  Description : String

/-- The struct `CurrentConditions`. -/
structure CurrentConditions where
  Datetime : String
  Temp : Float
  Feelslike : Float
  Humidity : Float
  Windspeed : Float
  Winddir : Float
  Pressure : Float
  Visibility : Float
  Cloudcover : Float
  Precip : Float
  Precipprob : Float
  Snow : Float
  Snowdepth : Float
  Conditions : String
  Description : String

/-- The struct `WeatherAPIResponse`, the payload that is fetched and cached. -/
structure WeatherAPIResponse where
  QueryCost : Int
  Longitude : Float
  Latitude : Float
  ResolvedAddress : String
  Address : String
  Timezone : String
  Tzoffset : Float
  Days : List Day
  CurrentConditions : CurrentConditions

/-! ## The surroundings of the cache and of the origin fetch

The code calls the standard library, the Redis client and the HTTP client. The pure library
functions are the fields of `Lib`; what the network and the process environment answer during
one call of `GetWeatherData` is an `Env`; the Redis server's contents and the record of what
was called are the `World` that every operation passes on. A Go `error` is its message. -/

/-- The library functions the code calls, as functions of their arguments. -/
structure Lib where
  /-- The function `strings.ToLower`. -/
  toLower : String → String
  /-- The function `url.QueryEscape`. -/
  queryEscape : String → String
  /-- The function `json.Marshal` on a payload: the bytes or the error. -/
  jsonMarshal : WeatherAPIResponse → Except String String
  /-- The function `json.Unmarshal` into a zero `WeatherAPIResponse`: the decoded payload
  or the error. -/
  jsonUnmarshal : String → Except String WeatherAPIResponse
  /-- The method `json.NewDecoder(body).Decode` into a zero `WeatherAPIResponse`: the decoded
  payload or the error. -/
  jsonDecode : String → Except String WeatherAPIResponse
  /-- The error of `http.NewRequest("GET", url, nil)`, if any. -/
  newRequest : String → Option String

/-- What the outside answers during one call. -/
structure Env where
  /-- The clock of the Redis server. -/
  now : Int
  /-- A failure of `redisClient.Get` other than `redis.Nil`, if the read fails. -/
  getFault : Option String
  /-- A failure of `redisClient.Set`, if the write fails. -/
  setFault : Option String
  /-- A failure of `redisClient.Del`, if the delete fails. -/
  delFault : Option String
  /-- The value of `os.Getenv("WEATHER_API_KEY")`. -/
  apiKey : String
  /-- The answer of `client.Do` to a GET of the URL: an error (a timeout among them), or
  the status code and the body. -/
  httpDo : String → Except String (Int × String)

/-- A value held by the Redis server and the clock reading at which it expires. -/
structure Entry where
  data : String
  expiresAt : Int
  deriving DecidableEq, Repr

/-- The contents of the Redis server. -/
abbrev Store := AList (fun _ : String => Entry)

/-- What the code called, in order. -/
inductive Event where
  | GetFromCache (key : String)
  | SetCache (key : String)
  | fetchFromAPI (city units : String)
  | redisGet (key : String)
  | redisSet (key data : String) (ttl : Int)
  | redisDel (key : String)
  | httpDo (url : String)
  | log (msg : String)
  deriving DecidableEq, Repr

/-- The package variable `redisClient` (`none` is the nil pointer, `some store` a client
of a server with these contents) and the record of the calls made so far. -/
structure World where
  redisClient : Option Store
  trace : List Event

/-- Record an event. -/
def World.emit (w : World) (e : Event) : World :=
  { w with trace := w.trace ++ [e] }

/-- The number of invocations of `fetchFromAPI` recorded. -/
def World.originFetches (w : World) : Nat :=
  w.trace.countP (fun e => match e with | .fetchFromAPI _ _ => true | _ => false)

/-- The number of invocations of `SetCache` recorded. -/
def World.setCacheCalls (w : World) : Nat :=
  w.trace.countP (fun e => match e with | .SetCache _ => true | _ => false)

/-- The number of writes sent to the Redis server recorded. -/
def World.redisWrites (w : World) : Nat :=
  w.trace.countP (fun e => match e with | .redisSet _ _ _ => true | _ => false)

/-! ## The cache (services/cache.go) -/

/-- The variable `cacheTTL`, `12 * time.Hour` in nanoseconds. -/
def cacheTTL : Int := 12 * 3600000000000

/-- The three outcomes of `redisClient.Get(ctx, key).Result()`. -/
inductive RedisGet where
  | value (val : String)
  | redisNil
  | failed (err : String)
  deriving DecidableEq, Repr

/-- The Redis command GET: a failure of the connection, or the value of a key that is
present and not yet expired, or `redis.Nil`. -/
def redisGet (env : Env) (store : Store) (key : String) : RedisGet :=
  match env.getFault with
  | some err => .failed err
  | none =>
    match store.lookup key with
    | some entry => if env.now < entry.expiresAt then .value entry.data else .redisNil
    | none => .redisNil

/-- The Redis command SET with an expiration: a failure of the connection, which leaves the
contents as they were, or the contents with the key bound to the data until `now + ttl`. -/
def redisSet (env : Env) (store : Store) (key data : String) (ttl : Int) :
    Except String Store :=
  match env.setFault with
  | some err => .error err
  | none => .ok (store.insert key { data := data, expiresAt := env.now + ttl })

/-- The Redis command DEL. -/
def redisDel (env : Env) (store : Store) (key : String) : Except String Store :=
  match env.delFault with
  | some err => .error err
  | none => .ok (store.erase key)

/-- The function `GetFromCache(key, dest)` called with a zero `dest`: `some v` when it
returns true, having decoded `v` into `dest`, and `none` when it returns false. -/
def GetFromCache (lib : Lib) (env : Env) (w : World) (key : String) :
    Option WeatherAPIResponse × World :=
  let w := w.emit (.GetFromCache key)
  match w.redisClient with
  | none => (none, w.emit (.log "⚠️  Redis client not initialized, skipping cache"))
  | some store =>
    let w := w.emit (.redisGet key)
    match redisGet env store key with
    | .failed err =>
      (none, w.emit (.log ("⚠️  Cache get error for key " ++ key ++ ": " ++ err)))
    | .redisNil => (none, w.emit (.log ("Cache miss for key: " ++ key)))
    | .value val =>
      match lib.jsonUnmarshal val with
      | .error err =>
        (none, w.emit (.log ("⚠️  Cache unmarshal error for key " ++ key ++ ": " ++ err)))
      | .ok v => (some v, w.emit (.log ("✅ Cache hit for key: " ++ key)))

/-- The function `SetCache(key, value)`: the returned error, `none` for nil. -/
def SetCache (lib : Lib) (env : Env) (w : World) (key : String) (value : WeatherAPIResponse) :
    Option String × World :=
  let w := w.emit (.SetCache key)
  match w.redisClient with
  | none => (none, w.emit (.log "⚠️  Redis client not initialized, skipping cache set"))
  | some store =>
    match lib.jsonMarshal value with
    | .error err => (some ("failed to marshal cache data: " ++ err), w)
    | .ok data =>
      let w := w.emit (.redisSet key data cacheTTL)
      match redisSet env store key data cacheTTL with
      | .error err =>
        (some ("failed to set cache: " ++ err),
          w.emit (.log ("⚠️  Failed to set cache for key " ++ key ++ ": " ++ err)))
      | .ok store' =>
        (none,
          { w with redisClient := some store' }.emit (.log ("💾 Cached data for key: " ++ key)))

/-- The function `DeleteCache(key)`: the returned error, `none` for nil. -/
def DeleteCache (env : Env) (w : World) (key : String) : Option String × World :=
  match w.redisClient with
  | none => (some "redis client not initialized", w)
  | some store =>
    let w := w.emit (.redisDel key)
    match redisDel env store key with
    | .error err => (some err, w)
    | .ok store' => (none, { w with redisClient := some store' })

/-! ## The fetch (services/weather.go) -/

/-- The function `fetchFromAPI(city, units)`: the payload or the error. -/
def fetchFromAPI (lib : Lib) (env : Env) (w : World) (city units : String) :
    Except String WeatherAPIResponse × World :=
  let w := w.emit (.fetchFromAPI city units)
  if env.apiKey = "" then
    (.error "WEATHER_API_KEY not set in environment variables", w)
  else
    let baseURL :=
      "https://weather.visualcrossing.com/VisualCrossingWebServices/rest/services/timeline/"
    let encodedCity := lib.queryEscape city
    let unitSystem := if units = "imperial" then "us" else "metric"
    let apiURL := baseURL ++ encodedCity ++ "?unitGroup=" ++ unitSystem ++ "&key=" ++ env.apiKey
      ++ "&contentType=json"
    match lib.newRequest apiURL with
    | some err => (.error ("failed to create request: " ++ err), w)
    | none =>
      let w := w.emit (.httpDo apiURL)
      match env.httpDo apiURL with
      | .error err => (.error ("failed to fetch weather data: " ++ err), w)
      | .ok (statusCode, body) =>
        if statusCode ≠ 200 then
          (.error ("API error (status " ++ toString statusCode ++ "): " ++ body), w)
        else
          match lib.jsonDecode body with
          | .error err => (.error ("failed to decode API response: " ++ err), w)
          | .ok weatherData =>
            (.ok weatherData,
              w.emit (.log ("üåç Fetched weather data for " ++ city ++ " from API")))

/-- The cache key of `GetWeatherData`, `fmt.Sprintf("weather:%s:%s", strings.ToLower(city),
units)`. -/
def cacheKey (lib : Lib) (city units : String) : String :=
  "weather:" ++ lib.toLower city ++ ":" ++ units

/-- The function `GetWeatherData(city, units)`: the returned pair (`none` is nil in both
components) and the world afterwards. -/
def GetWeatherData (lib : Lib) (env : Env) (w : World) (city units : String) :
    (Option WeatherAPIResponse × Option String) × World :=
  match GetFromCache lib env w (cacheKey lib city units) with
  | (some cachedData, w) => ((some cachedData, none), w)
  | (none, w) =>
    match fetchFromAPI lib env w city units with
    | (.error err, w) => ((none, some err), w)
    | (.ok apiData, w) =>
      match SetCache lib env w (cacheKey lib city units) apiData with
      | (some err, w) => ((some apiData, none), w.emit (.log ("Failed to cache data: " ++ err)))
      | (none, w) => ((some apiData, none), w)

/-! ## The HTTP layer (handlers/weather.go, main.go) -/

/-- What the request of a client carries: `c.ClientIP()`, `c.Query("city")` (the empty
string when the parameter is absent) and the query parameter `units` when it is present. -/
structure Request where
  clientIP : String
  city : String
  units : Option String

/-- What is answered to a request of `/api/weather`: the 429 of the rate-limit middleware,
and the 400, the 500 with the details of the error and the 200 with the payload of the
handler `GetWeather`. -/
inductive Response where
  | tooManyRequests
  | badRequest
  | internalServerError (details : String)
  | ok (weatherData : Option WeatherAPIResponse)

/-- The HTTP status of an answer. -/
def Response.status : Response → Nat
  | .tooManyRequests => 429
  | .badRequest => 400
  | .internalServerError _ => 500
  | .ok _ => 200

/-- The handler `GetWeather`. -/
def GetWeather (lib : Lib) (env : Env) (w : World) (req : Request) : Response × World :=
  let city := req.city
  let units := req.units.getD "metric"
  if city = "" then (.badRequest, w)
  else
    match GetWeatherData lib env w city units with
    | ((_, some err), w) => (.internalServerError err, w)
    | ((weatherData, none), w) => (.ok weatherData, w)

/-- The state of the running server: the limiter built in `main` and the world of the
cache. -/
structure Server where
  rateLimiter : RateLimiter
  world : World

/-- A request of `/api/weather` through the chain that `main` installs: the rate-limit
middleware, which on a denial answers 429 and aborts the chain, and otherwise passes on to
the handler with `c.Next()`. The clock reading `now` is the one `Allow` takes. -/
def serveWeather (lib : Lib) (env : Env) (now : Int) (s : Server) (req : Request) :
    Response × Server :=
  let ip := req.clientIP
  match Allow s.rateLimiter now ip with
  | (false, rl) => (.tooManyRequests, { s with rateLimiter := rl })
  | (true, rl) =>
    match GetWeather lib env s.world req with
    | (resp, w) => (resp, { rateLimiter := rl, world := w })

/-! ## Sample surroundings, for the concrete runs -/

/-- The zero value of `WeatherAPIResponse` with the given resolved address. -/
def samplePayload (address : String) : WeatherAPIResponse :=
  { QueryCost := 0, Longitude := 0, Latitude := 0, ResolvedAddress := address, Address := "",
    Timezone := "", Tzoffset := 0, Days := [],
    CurrentConditions :=
      { Datetime := "", Temp := 0, Feelslike := 0, Humidity := 0, Windspeed := 0, Winddir := 0,
        Pressure := 0, Visibility := 0, Cloudcover := 0, Precip := 0, Precipprob := 0,
        Snow := 0, Snowdepth := 0, Conditions := "", Description := "" } }

/-- A stand-in for the library: lower-casing of ASCII letters, an escape that leaves plain
names alone, and a codec that keeps the resolved address only. -/
def sampleLib : Lib :=
  { toLower := fun s => String.mk (s.data.map Char.toLower)
    queryEscape := fun s => s
    jsonMarshal := fun v => .ok v.ResolvedAddress
    jsonUnmarshal := fun s => .ok (samplePayload s)
    jsonDecode := fun s => .ok (samplePayload s)
    newRequest := fun _ => none }

/-- A library like `sampleLib` whose `json.Marshal` fails. -/
def failingMarshalLib : Lib :=
  { sampleLib with jsonMarshal := fun _ => .error "json: unsupported value" }

/-- A payload whose longitude is the `float64` NaN, a value that `json.Marshal` rejects. -/
def nanPayload : WeatherAPIResponse :=
  { samplePayload "Paris, France" with Longitude := 0 / 0 }

/-- A library like `sampleLib` whose `json.Marshal` answers as the real one does on a payload
with a NaN field. -/
def unsupportedValueLib : Lib :=
  { sampleLib with jsonMarshal := fun _ => .error "json: unsupported value: NaN" }

/-- An origin that answers every request with status 200 and the body "Paris, France", and a
Redis server without faults, at clock reading `now`. -/
def sampleEnv (now : Int) : Env :=
  { now := now, getFault := none, setFault := none, delFault := none, apiKey := "k",
    httpDo := fun _ => .ok (200, "Paris, France") }

/-- An origin that answers every request with status 503. -/
def downEnv (now : Int) : Env :=
  { sampleEnv now with httpDo := fun _ => .ok (503, "unavailable") }

/-- A Redis server that refuses writes, with the origin of `sampleEnv`. -/
def readOnlyEnv (now : Int) : Env :=
  { sampleEnv now with setFault := some "READONLY" }

/-- A connected client of an empty server, nothing called yet. -/
def emptyWorld : World := { redisClient := some ∅, trace := [] }

/-- The nil client, left by a failed `InitRedis`, nothing called yet. -/
def offlineWorld : World := { redisClient := none, trace := [] }

/-- A library like `sampleLib` whose escape writes a colon as `%3A`, as `url.QueryEscape`
does. -/
def colonEscapingLib : Lib :=
  { sampleLib with
    queryEscape := fun s =>
      String.mk (s.data.flatMap (fun ch => if ch = ':' then ['%', '3', 'A'] else [ch])) }

/-- An origin that answers every request with status 200 and the requested URL as the body,
so that the payloads of different requests differ, and a Redis server without faults. -/
def echoEnv (now : Int) : Env :=
  { sampleEnv now with httpDo := fun url => .ok (200, url) }

/-! ## Lemmas on time -/

theorem timeSub_mono {t t' u u' : Int} (ht : t ≤ t') (hu : u' ≤ u) :
    timeSub t u ≤ timeSub t' u' := by
  unfold timeSub maxDuration minDuration
  split_ifs <;> omega

theorem validTimestamps_eq_filter (window : Int) (now : Int) (ts : List Int) :
    validTimestamps window now ts = ts.filter (fun t => decide (timeSub now t ≤ window)) := by
  unfold validTimestamps
  suffices h : ∀ acc : List Int,
      ts.foldl (fun out t => if timeSub now t ≤ window then out ++ [t] else out) acc
        = acc ++ ts.filter (fun t => decide (timeSub now t ≤ window)) by
    simpa using h []
  induction ts with
  | nil => intro acc; simp
  | cons a l ih =>
    intro acc
    by_cases h : timeSub now a ≤ window
    · simp [List.foldl_cons, h, ih, List.filter_cons]
    · simp [List.foldl_cons, h, ih, List.filter_cons]

/-! ## Lemmas on the limiter's operations -/

/-- Folding `cleanupEntry` over a list of entries with distinct keys: a key of the list ends
with the outcome of its own iteration, every other key keeps its binding. -/
theorem lookup_foldl_cleanupEntry (window now : Int) (k : String) :
    ∀ (l : List (Sigma fun _ : String => List Int)) (m : Visitors), l.NodupKeys →
      (l.foldl (fun r a => cleanupEntry window now r a.1 a.2) m).lookup k
        = match l.dlookup k with
          | some ts =>
              if (validTimestamps window now ts).length = 0 then none
              else some (validTimestamps window now ts)
          | none => m.lookup k := by
  intro l
  induction l with
  | nil => intro m _; simp
  | cons a l ih =>
    intro m hnd
    obtain ⟨ip, ts⟩ := a
    rw [List.nodupKeys_cons] at hnd
    rw [List.foldl_cons, ih _ hnd.2]
    by_cases hk : k = ip
    · subst hk
      have hnone : l.dlookup k = none := List.dlookup_eq_none.mpr hnd.1
      simp only [hnone, List.dlookup_cons_eq, cleanupEntry]
      split_ifs with h0
      · simp
      · simp
    · have hne : ip ≠ k := fun h => hk h.symm
      rw [List.dlookup_cons_ne l ⟨ip, ts⟩ hk]
      cases hl : l.dlookup k with
      | some v => rfl
      | none =>
        simp only [cleanupEntry]
        split_ifs with h0
        · simp [AList.lookup_erase_ne hk]
        · simp [AList.lookup_insert_ne hk]

theorem lookup_cleanup (rl : RateLimiter) (now : Int) (ip : String) :
    (cleanup rl now).visitors.lookup ip
      = match rl.visitors.lookup ip with
        | some ts =>
            if (validTimestamps rl.window now ts).length = 0 then none
            else some (validTimestamps rl.window now ts)
        | none => none := by
  have h := lookup_foldl_cleanupEntry rl.window now ip rl.visitors.entries rl.visitors
    rl.visitors.nodupKeys
  simp only [cleanup, AList.foldl]
  rw [h]
  cases hl : rl.visitors.lookup ip with
  | some ts => simp [AList.lookup] at hl; simp [hl]
  | none => simp [AList.lookup] at hl; simp [hl, AList.lookup]

theorem stored_cleanup (rl : RateLimiter) (now : Int) (ip : String) :
    stored (cleanup rl now) ip = validTimestamps rl.window now (stored rl ip) := by
  unfold stored
  rw [lookup_cleanup]
  cases hl : rl.visitors.lookup ip with
  | some ts =>
    by_cases h0 : (validTimestamps rl.window now ts).length = 0
    · simp [h0, List.length_eq_zero.mp h0]
    · simp [h0]
  | none => simp [validTimestamps]

theorem cleanup_limit (rl : RateLimiter) (now : Int) : (cleanup rl now).limit = rl.limit := rfl

theorem cleanup_window (rl : RateLimiter) (now : Int) :
    (cleanup rl now).window = rl.window := rfl

theorem Allow_limit (rl : RateLimiter) (now : Int) (ip : String) :
    (Allow rl now ip).2.limit = rl.limit := by
  unfold Allow; dsimp only; split_ifs <;> rfl

theorem Allow_window (rl : RateLimiter) (now : Int) (ip : String) :
    (Allow rl now ip).2.window = rl.window := by
  unfold Allow; dsimp only; split_ifs <;> rfl

/-- The boolean of `Allow` compares the number of retained timestamps with the limit. -/
theorem Allow_fst (rl : RateLimiter) (now : Int) (ip : String) :
    (Allow rl now ip).1
      = decide (((validTimestamps rl.window now (stored rl ip)).length : Int) < rl.limit) := by
  unfold Allow stored; dsimp only
  split_ifs with h
  · simp; omega
  · simp; omega

theorem Allow_false_state (rl : RateLimiter) (now : Int) (ip : String)
    (h : (Allow rl now ip).1 = false) : (Allow rl now ip).2 = rl := by
  unfold Allow at h ⊢; dsimp only at h ⊢
  split_ifs with hc
  · rfl
  · rw [if_neg hc] at h; cases h

theorem Allow_true_lookup (rl : RateLimiter) (now : Int) (ip : String)
    (h : (Allow rl now ip).1 = true) :
    (Allow rl now ip).2.visitors.lookup ip
      = some (validTimestamps rl.window now (stored rl ip) ++ [now]) := by
  unfold Allow at h; unfold Allow stored; dsimp only at h ⊢
  split_ifs with hc
  · rw [if_pos hc] at h; cases h
  · simp

theorem Allow_lookup_ne (rl : RateLimiter) (now : Int) (ip k : String) (hk : k ≠ ip) :
    (Allow rl now ip).2.visitors.lookup k = rl.visitors.lookup k := by
  unfold Allow; dsimp only
  split_ifs with hc
  · rfl
  · simp [AList.lookup_insert_ne hk]

theorem stored_Allow_true (rl : RateLimiter) (now : Int) (ip : String)
    (h : (Allow rl now ip).1 = true) :
    stored (Allow rl now ip).2 ip = validTimestamps rl.window now (stored rl ip) ++ [now] := by
  rw [stored, Allow_true_lookup rl now ip h]; rfl

theorem stored_Allow_ne (rl : RateLimiter) (now : Int) (ip k : String) (hk : k ≠ ip) :
    stored (Allow rl now ip).2 k = stored rl k := by
  rw [stored, Allow_lookup_ne rl now ip k hk]; rfl

/-! ## Executions of the limiter -/

theorem run_nil (rl : RateLimiter) : run rl [] = rl := rfl

theorem run_cons (rl : RateLimiter) (a : Call) (calls : List Call) :
    run rl (a :: calls) = run (step rl a) calls := rfl

theorem step_window (rl : RateLimiter) (a : Call) : (step rl a).window = rl.window := by
  cases a with
  | allow now ip => exact Allow_window rl now ip
  | cleanup now => rfl

theorem step_limit (rl : RateLimiter) (a : Call) : (step rl a).limit = rl.limit := by
  cases a with
  | allow now ip => exact Allow_limit rl now ip
  | cleanup now => rfl

theorem run_window (rl : RateLimiter) (calls : List Call) :
    (run rl calls).window = rl.window := by
  induction calls generalizing rl with
  | nil => rfl
  | cons a l ih => rw [run_cons, ih, step_window]

theorem run_limit (rl : RateLimiter) (calls : List Call) :
    (run rl calls).limit = rl.limit := by
  induction calls generalizing rl with
  | nil => rfl
  | cons a l ih => rw [run_cons, ih, step_limit]

/-- The admitted clock readings are taken, in order, from the clock readings of the calls. -/
theorem admitted_sublist (c : String) (rl : RateLimiter) (calls : List Call) :
    (admitted c rl calls).Sublist (calls.map Call.time) := by
  induction calls generalizing rl with
  | nil => simp [admitted]
  | cons a l ih =>
    cases a with
    | allow now ip =>
      simp only [admitted, List.map_cons, Call.time]
      split_ifs
      · exact (ih _).cons₂ now
      · exact (ih _).cons now
    | cleanup now =>
      simp only [admitted, List.map_cons, Call.time]
      exact (ih _).cons now

/-- Filtering keeps every element that a predicate counts, when the filter accepts all of
them. -/
theorem countP_filter_of_imp (p q : Int → Bool) (l : List Int)
    (h : ∀ x ∈ l, p x = true → q x = true) :
    (l.filter q).countP p = l.countP p := by
  induction l with
  | nil => rfl
  | cons a l ih =>
    have ih' := ih (fun x hx => h x (List.mem_cons_of_mem a hx))
    by_cases hq : q a = true
    · rw [List.filter_cons_of_pos hq, List.countP_cons, List.countP_cons, ih']
    · have hp : ¬ p a = true := fun hp => hq (h a (List.mem_cons_self a l) hp)
      rw [List.filter_cons_of_neg hq, List.countP_cons_of_neg _ _ hp, ih']

/-- A timestamp not older than `t1` survives the filter at any clock reading up to `t`, when
`t1` itself is inside the window at `t`. -/
theorem validTimestamps_countP_ge (window now t t1 : Int) (l : List Int)
    (hnow : now ≤ t) (hin : timeSub t t1 ≤ window) :
    (validTimestamps window now l).countP (fun x => decide (t1 ≤ x))
      = l.countP (fun x => decide (t1 ≤ x)) := by
  rw [validTimestamps_eq_filter]
  apply countP_filter_of_imp
  intro x _ hx
  have hx' : t1 ≤ x := of_decide_eq_true hx
  exact decide_eq_true (le_trans (timeSub_mono hnow hx') hin)

/-- While the clock stays at or before `t` and `t1` is inside the window at `t`, the stored
timestamps not older than `t1` are never pruned: each admitted call adds one. -/
theorem countP_stored_run (c : String) (t t1 : Int) (calls : List Call) :
    ∀ rl : RateLimiter, (∀ a ∈ calls, a.time ≤ t) → timeSub t t1 ≤ rl.window →
      (stored (run rl calls) c).countP (fun x => decide (t1 ≤ x))
        = (stored rl c).countP (fun x => decide (t1 ≤ x))
          + (admitted c rl calls).countP (fun x => decide (t1 ≤ x)) := by
  induction calls with
  | nil => intro rl _ _; simp [run_nil, admitted]
  | cons a l ih =>
    intro rl hle hin
    have ha : a.time ≤ t := hle a (List.mem_cons_self a l)
    have hl : ∀ b ∈ l, b.time ≤ t := fun b hb => hle b (List.mem_cons_of_mem a hb)
    rw [run_cons, ih (step rl a) hl (by rw [step_window]; exact hin)]
    cases a with
    | cleanup now =>
      simp only [step, admitted]
      rw [stored_cleanup, validTimestamps_countP_ge rl.window now t t1 _ ha hin]
    | allow now ip =>
      simp only [step, admitted]
      by_cases hip : ip = c
      · subst hip
        cases hres : (Allow rl now ip).1 with
        | true =>
          rw [stored_Allow_true rl now ip hres]
          simp only [true_and, if_true, List.countP_append, and_self]
          rw [validTimestamps_countP_ge rl.window now t t1 _ ha hin]
          omega
        | false =>
          rw [Allow_false_state rl now ip hres]
          simp
      · have hne : c ≠ ip := fun h => hip h.symm
        rw [stored_Allow_ne rl now ip c hne]
        simp [hip]

theorem admitted_cons (c : String) (rl : RateLimiter) (a : Call) (calls : List Call) :
    admitted c rl (a :: calls) = admitted c rl [a] ++ admitted c (step rl a) calls := by
  cases a with
  | allow now ip => simp [admitted, step]
  | cleanup now => simp [admitted, step]

/-- A difference that is inside the window stays inside it after saturation. -/
theorem timeSub_le_of_sub_le {t u w : Int} (hw : 0 < w) (h : t - u ≤ w) : timeSub t u ≤ w := by
  unfold timeSub maxDuration minDuration
  split_ifs <;> omega

/-- The invariant `Tracked` is kept by every call made at or after the current clock
reading. -/
theorem Tracked.after_call {c : String} {rl : RateLimiter} {past : List Int} {lo : Int}
    (h : Tracked c rl past lo) (hW : 0 < rl.window) (a : Call) (hlo : lo ≤ a.time) :
    Tracked c (step rl a) (past ++ admitted c rl [a]) a.time := by
  have hkept : ∀ τ : Int, timeSub a.time τ ≤ rl.window →
      past.countP (fun x => decide (τ ≤ x)) ≤ (stored rl c).countP (fun x => decide (τ ≤ x)) :=
    fun τ hτ => h.kept τ (le_trans (timeSub_mono hlo (le_refl τ)) hτ)
  have hpast : ∀ x ∈ past, x ≤ a.time := fun x hx => le_trans (h.past_le x hx) hlo
  -- a call that changes neither the admitted readings nor the stored ones
  have hsame : admitted c rl [a] = [] → stored (step rl a) c = stored rl c →
      Tracked c (step rl a) (past ++ admitted c rl [a]) a.time := by
    intro hadm hst
    rw [hadm, List.append_nil]
    refine ⟨hpast, ?_, ?_⟩
    · intro τ hτ
      rw [step_window] at hτ
      rw [hst]
      exact hkept τ hτ
    · intro T
      rw [step_window, step_limit]
      exact h.bounded T
  cases a with
  | cleanup now =>
    simp only [Call.time] at hlo hkept hpast ⊢
    refine ⟨by simpa [admitted] using hpast, ?_, ?_⟩
    · intro τ hτ
      simp only [step, cleanup_window] at hτ
      simp only [admitted, List.append_nil, step]
      rw [stored_cleanup, validTimestamps_countP_ge rl.window now now τ _ (le_refl now) hτ]
      exact hkept τ hτ
    · intro T
      simpa [admitted, step, cleanup] using h.bounded T
  | allow now ip =>
    by_cases hip : ip = c
    · subst hip
      cases hres : (Allow rl now ip).1 with
      | false =>
        apply hsame
        · simp [admitted, hres]
        · simp only [step]; rw [Allow_false_state rl now ip hres]
      | true =>
        simp only [Call.time] at hlo hkept hpast ⊢
        have hadm : admitted ip rl [Call.allow now ip] = [now] := by simp [admitted, hres]
        have hlt : ((validTimestamps rl.window now (stored rl ip)).length : Int) < rl.limit := by
          have := Allow_fst rl now ip
          rw [hres] at this
          exact of_decide_eq_true this.symm
        rw [hadm]
        refine ⟨?_, ?_, ?_⟩
        · intro x hx
          rcases List.mem_append.mp hx with hx | hx
          · exact hpast x hx
          · simp only [List.mem_singleton] at hx; omega
        · intro τ hτ
          simp only [step, Allow_window] at hτ
          simp only [step]
          rw [stored_Allow_true rl now ip hres, List.countP_append, List.countP_append,
            validTimestamps_countP_ge rl.window now now τ _ (le_refl now) hτ]
          exact Nat.add_le_add_right (hkept τ hτ) _
        · intro T
          simp only [step, Allow_window, Allow_limit]
          rw [List.countP_append]
          by_cases hT : T - rl.window ≤ now ∧ now ≤ T
          · -- the admitted readings of the interval are all stored and inside the window
            have h1 : past.countP (fun a => decide (T - rl.window ≤ a ∧ a ≤ T))
                ≤ past.countP (fun x => decide (now - rl.window ≤ x)) := by
              apply List.countP_mono_left
              intro x _ hx
              have hx' := of_decide_eq_true hx
              exact decide_eq_true (by omega)
            have h2 := hkept (now - rl.window) (timeSub_le_of_sub_le hW (by omega))
            have h3 := validTimestamps_countP_ge rl.window now now (now - rl.window)
              (stored rl ip) (le_refl now) (timeSub_le_of_sub_le hW (by omega))
            have h4 := List.countP_le_length (fun x => decide (now - rl.window ≤ x))
              (l := validTimestamps rl.window now (stored rl ip))
            have h5 : [now].countP (fun a => decide (T - rl.window ≤ a ∧ a ≤ T)) = 1 := by
              rw [List.countP_cons, List.countP_nil, decide_eq_true hT]; rfl
            rw [h5]
            push_cast
            omega
          · have h5 : [now].countP (fun a => decide (T - rl.window ≤ a ∧ a ≤ T)) = 0 := by
              rw [List.countP_cons, List.countP_nil, decide_eq_false hT]; rfl
            rw [h5]
            simpa using h.bounded T
    · apply hsame
      · simp [admitted, hip]
      · simp only [step]
        exact stored_Allow_ne rl now ip c (fun h => hip h.symm)

/-- From a state that satisfies `Tracked`, every execution with a non-decreasing clock keeps
the admitted readings of any closed interval of the window's length within the limit. -/
theorem Tracked.run_bounded (c : String) (calls : List Call) :
    ∀ (rl : RateLimiter) (past : List Int) (lo : Int), Tracked c rl past lo →
      0 < rl.window → NonDecreasing calls → (∀ a ∈ calls, lo ≤ a.time) →
      ∀ T : Int,
        ((past ++ admitted c rl calls).countP
          (fun a => decide (T - rl.window ≤ a ∧ a ≤ T)) : Int) ≤ rl.limit := by
  induction calls with
  | nil =>
    intro rl past lo h _ _ _ T
    simpa [admitted] using h.bounded T
  | cons a l ih =>
    intro rl past lo h hW hmono hlo T
    unfold NonDecreasing at hmono
    rw [List.map_cons, List.pairwise_cons] at hmono
    have hstep := h.after_call hW a (hlo a (List.mem_cons_self a l))
    have hnext := ih (step rl a) (past ++ admitted c rl [a]) a.time hstep
      (by rw [step_window]; exact hW) hmono.2
      (fun b hb => hmono.1 b.time (List.mem_map_of_mem Call.time hb)) T
    rw [step_window, step_limit, List.append_assoc, ← admitted_cons] at hnext
    exact hnext

/-! ## Lemmas on the cache and on the fetch -/

theorem emit_redisClient (w : World) (e : Event) : (w.emit e).redisClient = w.redisClient := rfl

theorem emit_originFetches (w : World) (e : Event) :
    (w.emit e).originFetches
      = w.originFetches + (match e with | .fetchFromAPI _ _ => 1 | _ => 0) := by
  cases e <;> simp [World.emit, World.originFetches, List.countP_append, List.countP_cons]

theorem emit_setCacheCalls (w : World) (e : Event) :
    (w.emit e).setCacheCalls = w.setCacheCalls + (match e with | .SetCache _ => 1 | _ => 0) := by
  cases e <;> simp [World.emit, World.setCacheCalls, List.countP_append, List.countP_cons]

theorem emit_redisWrites (w : World) (e : Event) :
    (w.emit e).redisWrites = w.redisWrites + (match e with | .redisSet _ _ _ => 1 | _ => 0) := by
  cases e <;> simp [World.emit, World.redisWrites, List.countP_append, List.countP_cons]

/-- A lookup in the cache writes nothing, fetches nothing and leaves the client as it is. -/
theorem GetFromCache_frame (lib : Lib) (env : Env) (w : World) (key : String) :
    (GetFromCache lib env w key).2.redisClient = w.redisClient
      ∧ (GetFromCache lib env w key).2.originFetches = w.originFetches
      ∧ (GetFromCache lib env w key).2.setCacheCalls = w.setCacheCalls
      ∧ (GetFromCache lib env w key).2.redisWrites = w.redisWrites := by
  unfold GetFromCache
  dsimp only
  repeat' split
  all_goals
    simp only [emit_redisClient, emit_originFetches, emit_setCacheCalls, emit_redisWrites,
      Nat.add_zero, and_self]

/-- The origin fetch counts as one invocation, whatever it returns, and touches the cache in
no way. -/
theorem fetchFromAPI_frame (lib : Lib) (env : Env) (w : World) (city units : String) :
    (fetchFromAPI lib env w city units).2.redisClient = w.redisClient
      ∧ (fetchFromAPI lib env w city units).2.originFetches = w.originFetches + 1
      ∧ (fetchFromAPI lib env w city units).2.setCacheCalls = w.setCacheCalls
      ∧ (fetchFromAPI lib env w city units).2.redisWrites = w.redisWrites := by
  unfold fetchFromAPI
  dsimp only
  repeat' split
  all_goals
    simp only [emit_redisClient, emit_originFetches, emit_setCacheCalls, emit_redisWrites,
      Nat.add_zero, and_self]

/-- A cache write fetches nothing. -/
theorem SetCache_originFetches (lib : Lib) (env : Env) (w : World) (key : String)
    (value : WeatherAPIResponse) :
    (SetCache lib env w key value).2.originFetches = w.originFetches := by
  unfold SetCache
  dsimp only
  repeat' split
  all_goals simp [World.originFetches, World.emit, List.countP_append, List.countP_cons]

/-- The three ways through `GetWeatherData`. -/
theorem GetWeatherData_hit (lib : Lib) (env : Env) (w w1 : World) (city units : String)
    (v : WeatherAPIResponse)
    (hhit : GetFromCache lib env w (cacheKey lib city units) = (some v, w1)) :
    GetWeatherData lib env w city units = ((some v, none), w1) := by
  unfold GetWeatherData
  rw [hhit]

theorem GetWeatherData_miss_error (lib : Lib) (env : Env) (w w1 w2 : World)
    (city units err : String)
    (hmiss : GetFromCache lib env w (cacheKey lib city units) = (none, w1))
    (hfetch : fetchFromAPI lib env w1 city units = (.error err, w2)) :
    GetWeatherData lib env w city units = ((none, some err), w2) := by
  unfold GetWeatherData
  rw [hmiss]
  dsimp only
  rw [hfetch]

theorem GetWeatherData_miss_ok (lib : Lib) (env : Env) (w w1 w2 : World)
    (city units : String) (v : WeatherAPIResponse)
    (hmiss : GetFromCache lib env w (cacheKey lib city units) = (none, w1))
    (hfetch : fetchFromAPI lib env w1 city units = (.ok v, w2)) :
    (GetWeatherData lib env w city units).1 = (some v, none)
      ∧ (GetWeatherData lib env w city units).2.originFetches = w2.originFetches
      ∧ (GetWeatherData lib env w city units).2.redisClient
          = (SetCache lib env w2 (cacheKey lib city units) v).2.redisClient := by
  unfold GetWeatherData
  rw [hmiss]
  dsimp only
  rw [hfetch]
  dsimp only
  have hset := SetCache_originFetches lib env w2 (cacheKey lib city units) v
  cases heq : SetCache lib env w2 (cacheKey lib city units) v with
  | mk res w3 =>
    rw [heq] at hset
    cases res with
    | some err => exact ⟨rfl, by rw [emit_originFetches]; exact hset, rfl⟩
    | none => exact ⟨rfl, hset, rfl⟩

/-- A cache write that returns nil on a connected client has encoded the value and bound the
key to the bytes until `now + cacheTTL`. -/
theorem SetCache_ok_stored (lib : Lib) (env : Env) (w w' : World) (store : Store)
    (key : String) (v : WeatherAPIResponse)
    (hconn : w.redisClient = some store)
    (hset : SetCache lib env w key v = (none, w')) :
    ∃ data, lib.jsonMarshal v = .ok data
      ∧ w'.redisClient
          = some (store.insert key { data := data, expiresAt := env.now + cacheTTL }) := by
  unfold SetCache at hset
  simp only [emit_redisClient, hconn] at hset
  cases hm : lib.jsonMarshal v with
  | error err => rw [hm] at hset; simp at hset
  | ok data =>
    rw [hm] at hset
    refine ⟨data, rfl, ?_⟩
    unfold redisSet at hset
    cases hf : env.setFault with
    | some err => rw [hf] at hset; simp at hset
    | none =>
      rw [hf] at hset
      simp only [Prod.mk.injEq, true_and] at hset
      rw [← hset]
      rfl

/-- A lookup of a key that the connected server holds, unexpired, with bytes that decode,
returns true with the decoded payload. -/
theorem GetFromCache_of_entry (lib : Lib) (env : Env) (w : World) (store : Store)
    (key : String) (entry : Entry) (v : WeatherAPIResponse)
    (hconn : w.redisClient = some store)
    (hentry : store.lookup key = some entry)
    (hread : env.getFault = none)
    (hfresh : env.now < entry.expiresAt)
    (hdecode : lib.jsonUnmarshal entry.data = .ok v) :
    (GetFromCache lib env w key).1 = some v := by
  unfold GetFromCache redisGet
  simp only [emit_redisClient, hconn, hread, hentry, if_pos hfresh, hdecode]

/-! ## The limiter's contract -/

/-- C1: on a limiter in any state, with limit `N ≥ 1` and window `W > 0`, if during an
execution with a non-decreasing clock (any mix of `Allow` calls for any clients and of
cleanup passes) exactly `N` calls `Allow(c)` returned true, the first of them at `t1`, then
a further `Allow(c)` at a time `t` with `t - t1 < W` returns false. -/
theorem Allow_denied_within_window (rl : RateLimiter) (c : String) (calls : List Call)
    (t t1 : Int) (rest : List Int)
    (hN : 1 ≤ rl.limit) (hW : 0 < rl.window)
    (hmono : NonDecreasing (calls ++ [Call.allow t c]))
    (hadm : admitted c rl calls = t1 :: rest)
    (hlen : ((t1 :: rest).length : Int) = rl.limit)
    (ht : t - t1 < rl.window) :
    (Allow (run rl calls) t c).1 = false := by
  have _ := hN
  -- the saturated difference is inside the window too
  have hin : timeSub t t1 ≤ rl.window := by
    unfold timeSub maxDuration minDuration
    split_ifs <;> omega
  -- every call is made at or before `t`, and the admitted readings are sorted
  unfold NonDecreasing at hmono
  rw [List.map_append, List.pairwise_append] at hmono
  obtain ⟨hsorted, -, hbefore⟩ := hmono
  have hle : ∀ a ∈ calls, a.time ≤ t := fun a ha =>
    hbefore a.time (List.mem_map_of_mem Call.time ha) t (by simp [Call.time])
  have hadmSorted : (t1 :: rest).Pairwise (· ≤ ·) := by
    rw [← hadm]; exact hsorted.sublist (admitted_sublist c rl calls)
  have hall : (t1 :: rest).countP (fun x => decide (t1 ≤ x)) = (t1 :: rest).length := by
    rw [List.countP_eq_length]
    intro x hx
    rcases List.mem_cons.mp hx with h | h
    · simp [h]
    · exact decide_eq_true (List.rel_of_pairwise_cons hadmSorted h)
  -- so all `N` admitted timestamps are still stored, and all of them are retained at `t`
  have hcount := countP_stored_run c t t1 calls rl hle hin
  rw [hadm, hall] at hcount
  have hkeep := validTimestamps_countP_ge rl.window t t t1 (stored (run rl calls) c)
    (le_refl t) hin
  have hbound := List.countP_le_length (fun x => decide (t1 ≤ x))
    (l := validTimestamps rl.window t (stored (run rl calls) c))
  rw [Allow_fst, run_window, run_limit]
  apply decide_eq_false
  omega

/-- A run of C1 with limit 3 and window 1000: three admitted calls at 0, 100 and 200, with a
call of another client and a cleanup pass in between, and a fourth call at 300. -/
theorem Allow_denied_within_window_witness :
    (Allow (run (NewRateLimiter 3 1000)
        [Call.allow 0 "A", Call.allow 50 "B", Call.allow 100 "A", Call.cleanup 150,
          Call.allow 200 "A"]) 300 "A").1 = false :=
  Allow_denied_within_window (NewRateLimiter 3 1000) "A"
    [Call.allow 0 "A", Call.allow 50 "B", Call.allow 100 "A", Call.cleanup 150,
      Call.allow 200 "A"] 300 0 [100, 200]
    (by decide) (by decide) (by decide) (by decide) (by decide) (by decide)

/-- C2, as stated, fails on the boundary: with limit 1 and window 10, a client admitted at 0
has a full quota, and its call at time 10, exactly the window length later, is denied. -/
theorem Allow_at_window_boundary_denied :
    (run (NewRateLimiter 1 10) [Call.allow 0 "A"]).limit = 1
      ∧ (run (NewRateLimiter 1 10) [Call.allow 0 "A"]).window = 10
      ∧ stored (run (NewRateLimiter 1 10) [Call.allow 0 "A"]) "A" = [0]
      ∧ (10 : Int) - 0 ≥ (run (NewRateLimiter 1 10) [Call.allow 0 "A"]).window
      ∧ (Allow (run (NewRateLimiter 1 10) [Call.allow 0 "A"]) 10 "A").1 = false := by
  decide

/-- C2, amended: when the quota of client `c` is full (exactly `limit` stored timestamps) and
`t1` is one of them, an `Allow(c)` at a time `t` strictly more than the window after `t1`
(`t.Sub(t1) > window`) returns true. -/
theorem Allow_admitted_after_window (rl : RateLimiter) (c : String) (t t1 : Int)
    (hfull : ((stored rl c).length : Int) = rl.limit)
    (hmem : t1 ∈ stored rl c)
    (ht : timeSub t t1 > rl.window) :
    (Allow rl t c).1 = true := by
  have hlt : (validTimestamps rl.window t (stored rl c)).length < (stored rl c).length := by
    rw [validTimestamps_eq_filter, List.length_filter_lt_length_iff_exists]
    exact ⟨t1, hmem, by simpa using ht⟩
  rw [Allow_fst]
  apply decide_eq_true
  omega

/-- The scenario of the specification for C2: limit 3, window 1000, a quota filled at 0, 100
and 200, and a call at 1050. -/
theorem Allow_admitted_after_window_witness :
    (Allow (run (NewRateLimiter 3 1000)
        [Call.allow 0 "A", Call.allow 100 "A", Call.allow 200 "A"]) 1050 "A").1 = true :=
  Allow_admitted_after_window
    (run (NewRateLimiter 3 1000) [Call.allow 0 "A", Call.allow 100 "A", Call.allow 200 "A"])
    "A" 1050 0 (by decide) (by decide) (by decide)

/-- C3, as stated, fails: with window 10 the timestamp 0 is exactly the window old at time
10, yet `Allow` counts it (the call is denied under limit 1), `Allow` keeps it when it admits
(under limit 2), and `cleanup` keeps it. -/
theorem timestamp_at_window_boundary_retained :
    (10 : Int) - 0 = (NewRateLimiter 1 10).window
      ∧ timeSub 10 0 = (NewRateLimiter 1 10).window
      ∧ (Allow (run (NewRateLimiter 1 10) [Call.allow 0 "A"]) 10 "A").1 = false
      ∧ stored (Allow (run (NewRateLimiter 2 10) [Call.allow 0 "A"]) 10 "A").2 "A" = [0, 10]
      ∧ stored (cleanup (run (NewRateLimiter 1 10) [Call.allow 0 "A"]) 10) "A" = [0] := by
  decide

/-- C3, amended: the boundary is inclusive. For a timestamp `t` stored for a client, `Allow`
and `cleanup` at time `now` retain `t` exactly when `now.Sub(t) <= window`: the retained
timestamps are the ones `Allow` counts against the limit, they are the sequence `cleanup`
leaves, and they are the sequence an admitting `Allow` leaves before the appended `now`. So
a timestamp exactly the window old is counted and kept, and one is expired only when
strictly older than the window. -/
theorem timestamp_retained_iff (rl : RateLimiter) (now : Int) (ip : String) (t : Int)
    (hmem : t ∈ stored rl ip) :
    (t ∈ validTimestamps rl.window now (stored rl ip) ↔ timeSub now t ≤ rl.window)
      ∧ (Allow rl now ip).1
          = decide (((validTimestamps rl.window now (stored rl ip)).length : Int) < rl.limit)
      ∧ (t ∈ stored (cleanup rl now) ip ↔ timeSub now t ≤ rl.window)
      ∧ ((Allow rl now ip).1 = true →
          stored (Allow rl now ip).2 ip
            = validTimestamps rl.window now (stored rl ip) ++ [now]) := by
  have hiff : t ∈ validTimestamps rl.window now (stored rl ip) ↔ timeSub now t ≤ rl.window := by
    rw [validTimestamps_eq_filter, List.mem_filter]
    simp [hmem]
  refine ⟨hiff, Allow_fst rl now ip, ?_, stored_Allow_true rl now ip⟩
  rw [stored_cleanup]
  exact hiff

/-- The timestamp 0 under window 10 at time 10, exactly the window old: retained. -/
theorem timestamp_retained_iff_witness :
    (0 : Int) ∈ validTimestamps 10 10 (stored (run (NewRateLimiter 2 10) [Call.allow 0 "A"]) "A")
      ∧ (0 : Int) ∈ stored (cleanup (run (NewRateLimiter 2 10) [Call.allow 0 "A"]) 10) "A" :=
  have h := timestamp_retained_iff (run (NewRateLimiter 2 10) [Call.allow 0 "A"]) 10 "A" 0
    (by decide)
  ⟨h.1.mpr (by decide), h.2.2.1.mpr (by decide)⟩

/-- C4: a limiter with limit at least 1 and window `W > 0` is started empty and driven by any
list of `Allow` and `cleanup` calls with non-decreasing clock readings. For every client `c`
and every instant `T`, at most `limit` of the calls `Allow(c)` that returned true were made
at a time in the closed interval `[T - W, T]`. -/
theorem admitted_in_window_le_limit (limit window : Int) (calls : List Call) (c : String)
    (T : Int) (hN : 1 ≤ limit) (hW : 0 < window) (hmono : NonDecreasing calls) :
    (((admitted c (NewRateLimiter limit window) calls).countP
      (fun a => decide (T - window ≤ a ∧ a ≤ T)) : Nat) : Int) ≤ limit := by
  cases calls with
  | nil => simp [admitted]; omega
  | cons a l =>
    have hinit : Tracked c (NewRateLimiter limit window) [] a.time :=
      ⟨by simp, by simp, by intro T; simp [NewRateLimiter]; omega⟩
    have hlo : ∀ b ∈ a :: l, a.time ≤ b.time := by
      intro b hb
      unfold NonDecreasing at hmono
      rw [List.map_cons, List.pairwise_cons] at hmono
      rcases List.mem_cons.mp hb with hb | hb
      · rw [hb]
      · exact hmono.1 b.time (List.mem_map_of_mem Call.time hb)
    simpa [NewRateLimiter] using
      Tracked.run_bounded c (a :: l) (NewRateLimiter limit window) [] a.time hinit hW hmono
        hlo T

/-- The scenario of the specification under C4: limit 3, window 1000, calls of client "A" at
0, 100, 200, 300 (denied) and 1050, and the interval `[50, 1050]`. -/
theorem admitted_in_window_le_limit_witness :
    (((admitted "A" (NewRateLimiter 3 1000)
        [Call.allow 0 "A", Call.allow 100 "A", Call.allow 200 "A", Call.allow 300 "A",
          Call.cleanup 1000, Call.allow 1050 "A"]).countP
      (fun a => decide ((1050 : Int) - 1000 ≤ a ∧ a ≤ 1050)) : Nat) : Int) ≤ 3 :=
  admitted_in_window_le_limit 3 1000
    [Call.allow 0 "A", Call.allow 100 "A", Call.allow 200 "A", Call.allow 300 "A",
      Call.cleanup 1000, Call.allow 1050 "A"] "A" 1050 (by decide) (by decide) (by decide)

/-- What `Allow(ip)` does depends only on the limit, the window and the entry of `ip`. -/
theorem Allow_congr (rl rl' : RateLimiter) (now : Int) (ip : String)
    (hl : rl.limit = rl'.limit) (hw : rl.window = rl'.window)
    (hv : rl.visitors.lookup ip = rl'.visitors.lookup ip) :
    (Allow rl now ip).1 = (Allow rl' now ip).1
      ∧ (Allow rl now ip).2.visitors.lookup ip = (Allow rl' now ip).2.visitors.lookup ip := by
  have hs : stored rl ip = stored rl' ip := by unfold stored; rw [hv]
  have h1 : (Allow rl now ip).1 = (Allow rl' now ip).1 := by
    rw [Allow_fst, Allow_fst, hl, hw, hs]
  refine ⟨h1, ?_⟩
  cases hres : (Allow rl now ip).1 with
  | true =>
    rw [Allow_true_lookup rl now ip hres, Allow_true_lookup rl' now ip (h1 ▸ hres), hw, hs]
  | false =>
    rw [Allow_false_state rl now ip hres, Allow_false_state rl' now ip (h1 ▸ hres), hv]

/-- C5: for clients `a ≠ b`, `Allow(a)` leaves the entry of `b` unchanged (absent stays
absent), and a later `Allow(b)` returns the same boolean and leaves the same entry for `b`
as it would without the `Allow(a)` call, for all states and call times. -/
theorem Allow_other_client_frame (rl : RateLimiter) (a b : String) (ta tb : Int)
    (hab : a ≠ b) :
    (Allow rl ta a).2.visitors.lookup b = rl.visitors.lookup b
      ∧ (Allow (Allow rl ta a).2 tb b).1 = (Allow rl tb b).1
      ∧ (Allow (Allow rl ta a).2 tb b).2.visitors.lookup b
          = (Allow rl tb b).2.visitors.lookup b := by
  have hframe := Allow_lookup_ne rl ta a b (fun h => hab h.symm)
  exact ⟨hframe, Allow_congr _ _ tb b (Allow_limit rl ta a) (Allow_window rl ta a) hframe⟩

/-- Two clients under limit 1: the admitted call of "A" at 1 changes nothing for "B". -/
theorem Allow_other_client_frame_witness :
    (Allow (NewRateLimiter 1 10) 1 "A").2.visitors.lookup "B"
        = (NewRateLimiter 1 10).visitors.lookup "B"
      ∧ (Allow (Allow (NewRateLimiter 1 10) 1 "A").2 2 "B").1
          = (Allow (NewRateLimiter 1 10) 2 "B").1
      ∧ (Allow (Allow (NewRateLimiter 1 10) 1 "A").2 2 "B").2.visitors.lookup "B"
          = (Allow (NewRateLimiter 1 10) 2 "B").2.visitors.lookup "B" :=
  Allow_other_client_frame (NewRateLimiter 1 10) "A" "B" 1 2 (by decide)

/-- C6: `Allow(c)` at time `now` returns true exactly when fewer than `limit` of the
timestamps stored for `c` are still inside the window (`now.Sub(t) <= window`); when it
returns true the entry of `c` becomes those timestamps, in their order, followed by `now`,
and when it returns false the entry is left as it was. -/
theorem Allow_spec (rl : RateLimiter) (now : Int) (c : String) :
    ((Allow rl now c).1 = true ↔
        ((((stored rl c).filter (fun t => decide (timeSub now t ≤ rl.window))).length : Int)
          < rl.limit))
      ∧ (Allow rl now c).2.visitors.lookup c
          = if (Allow rl now c).1 = true then
              some ((stored rl c).filter (fun t => decide (timeSub now t ≤ rl.window)) ++ [now])
            else rl.visitors.lookup c := by
  constructor
  · rw [Allow_fst, validTimestamps_eq_filter]; simp
  · cases hres : (Allow rl now c).1 with
    | true => rw [Allow_true_lookup rl now c hres, validTimestamps_eq_filter]; simp
    | false => rw [Allow_false_state rl now c hres]; simp

/-- C7: a call of `Allow` that returns false leaves the whole limiter as it was: the map,
with the entry of the caller un-pruned, the limit and the window. -/
theorem Allow_false_unchanged (rl : RateLimiter) (now : Int) (c : String)
    (h : (Allow rl now c).1 = false) : (Allow rl now c).2 = rl :=
  Allow_false_state rl now c h

/-- A denied call under limit 2 and window 10, after admissions at 0 and 5. -/
theorem Allow_false_unchanged_witness :
    (Allow (run (NewRateLimiter 2 10) [Call.allow 0 "A", Call.allow 5 "A"]) 8 "A").2
      = run (NewRateLimiter 2 10) [Call.allow 0 "A", Call.allow 5 "A"] :=
  Allow_false_unchanged (run (NewRateLimiter 2 10) [Call.allow 0 "A", Call.allow 5 "A"]) 8 "A"
    (by decide)

/-! ## The contract of the cache-aside fetch -/

/-- C8: when the lookup of the derived key is a hit with payload `v`, `GetWeatherData` returns
`(v, nil)` and the world is the one the lookup left: no invocation of `fetchFromAPI`, no
invocation of `SetCache`, no write to the server, the same client. Consequently, after a
first call that missed, fetched `P` from the origin and stored it (`SetCache` returned nil on
a connected client), a second call for the same key, made before the entry expires, with a
read that succeeds and bytes that decode back to `P`, returns `(P, nil)` without a further
invocation of the origin. -/
theorem GetWeatherData_cache_hit (lib : Lib) :
    (∀ (env : Env) (w w1 : World) (city units : String) (v : WeatherAPIResponse),
        GetFromCache lib env w (cacheKey lib city units) = (some v, w1) →
          GetWeatherData lib env w city units = ((some v, none), w1)
            ∧ w1.originFetches = w.originFetches
            ∧ w1.setCacheCalls = w.setCacheCalls
            ∧ w1.redisWrites = w.redisWrites
            ∧ w1.redisClient = w.redisClient)
      ∧ (∀ (env1 env2 : Env) (w wA wB wC : World) (store : Store)
          (city units city2 units2 : String) (P : WeatherAPIResponse),
          w.redisClient = some store →
          GetFromCache lib env1 w (cacheKey lib city units) = (none, wA) →
          fetchFromAPI lib env1 wA city units = (.ok P, wB) →
          SetCache lib env1 wB (cacheKey lib city units) P = (none, wC) →
          (∀ data, lib.jsonMarshal P = .ok data → lib.jsonUnmarshal data = .ok P) →
          cacheKey lib city2 units2 = cacheKey lib city units →
          env2.now < env1.now + cacheTTL →
          env2.getFault = none →
            GetWeatherData lib env1 w city units = ((some P, none), wC)
              ∧ wC.originFetches = w.originFetches + 1
              ∧ (GetWeatherData lib env2 wC city2 units2).1 = (some P, none)
              ∧ (GetWeatherData lib env2 wC city2 units2).2.originFetches
                  = wC.originFetches) := by
  constructor
  · intro env w w1 city units v hhit
    have hframe := GetFromCache_frame lib env w (cacheKey lib city units)
    rw [hhit] at hframe
    exact ⟨GetWeatherData_hit lib env w w1 city units v hhit, hframe.2.1, hframe.2.2.1,
      hframe.2.2.2, hframe.1⟩
  · intro env1 env2 w wA wB wC store city units city2 units2 P hconn hmiss hfetch hset hround
      hkey hfresh hread
    -- the first call
    have hA := GetFromCache_frame lib env1 w (cacheKey lib city units)
    rw [hmiss] at hA
    have hB := fetchFromAPI_frame lib env1 wA city units
    rw [hfetch] at hB
    have hC := SetCache_originFetches lib env1 wB (cacheKey lib city units) P
    rw [hset] at hC
    have hfirst : GetWeatherData lib env1 w city units = ((some P, none), wC) := by
      unfold GetWeatherData
      rw [hmiss]; dsimp only
      rw [hfetch]; dsimp only
      rw [hset]
    have hconnB : wB.redisClient = some store := by
      rw [hB.1, hA.1, hconn]
    obtain ⟨data, hdata, hstore⟩ :=
      SetCache_ok_stored lib env1 wB wC store (cacheKey lib city units) P hconnB hset
    -- the second call
    have hget : (GetFromCache lib env2 wC (cacheKey lib city2 units2)).1 = some P := by
      rw [hkey]
      exact GetFromCache_of_entry lib env2 wC _ (cacheKey lib city units)
        { data := data, expiresAt := env1.now + cacheTTL } P hstore
        (AList.lookup_insert _) hread hfresh (hround data hdata)
    have hframe2 := GetFromCache_frame lib env2 wC (cacheKey lib city2 units2)
    have hsecond := GetWeatherData_hit lib env2 wC
      (GetFromCache lib env2 wC (cacheKey lib city2 units2)).2 city2 units2 P
      (Prod.ext hget rfl)
    refine ⟨hfirst, ?_, ?_, ?_⟩
    · simp only at hC hB hA
      omega
    · rw [hsecond]
    · rw [hsecond]
      exact hframe2.2.1

/-- The scenario of the specification for C8: the key "weather:paris:metric", a first call
at clock reading 0 that fetches the payload and stores it, and a second call at clock reading
5 that is served from the cache: one origin fetch in all. -/
theorem GetWeatherData_cache_hit_witness :
    cacheKey sampleLib "Paris" "metric" = "weather:paris:metric"
      ∧ (GetWeatherData sampleLib (sampleEnv 0) emptyWorld "Paris" "metric").1
          = (some (samplePayload "Paris, France"), none)
      ∧ (GetWeatherData sampleLib (sampleEnv 5)
          (GetWeatherData sampleLib (sampleEnv 0) emptyWorld "Paris" "metric").2
          "PARIS" "metric").1 = (some (samplePayload "Paris, France"), none)
      ∧ (GetWeatherData sampleLib (sampleEnv 5)
          (GetWeatherData sampleLib (sampleEnv 0) emptyWorld "Paris" "metric").2
          "PARIS" "metric").2.originFetches = 1 :=
  have h := (GetWeatherData_cache_hit sampleLib).2 (sampleEnv 0) (sampleEnv 5) emptyWorld
    (GetFromCache sampleLib (sampleEnv 0) emptyWorld "weather:paris:metric").2
    (fetchFromAPI sampleLib (sampleEnv 0)
      (GetFromCache sampleLib (sampleEnv 0) emptyWorld "weather:paris:metric").2
      "Paris" "metric").2
    (GetWeatherData sampleLib (sampleEnv 0) emptyWorld "Paris" "metric").2
    ∅ "Paris" "metric" "PARIS" "metric" (samplePayload "Paris, France")
    rfl rfl rfl rfl (fun _ hd => by cases hd; rfl) rfl (by decide) rfl
  have h1 := (GetWeatherData_cache_hit sampleLib).1 (sampleEnv 5)
    (GetWeatherData sampleLib (sampleEnv 0) emptyWorld "Paris" "metric").2
    (GetFromCache sampleLib (sampleEnv 5)
      (GetWeatherData sampleLib (sampleEnv 0) emptyWorld "Paris" "metric").2
      "weather:paris:metric").2
    "PARIS" "metric" (samplePayload "Paris, France") rfl
  ⟨rfl, congrArg Prod.fst h.1, congrArg Prod.fst h1.1, h.2.2.2.trans h.2.1⟩

/-- C9: on a cache miss, if the origin fetch fails with error `e`, `GetWeatherData` returns
`(nil, e)`, having invoked `fetchFromAPI` exactly once and neither `SetCache` nor a write to
the server; and whenever `GetWeatherData` returns a non-nil error `e`, the lookup was a miss
and the origin fetch failed with `e`. -/
theorem GetWeatherData_origin_failure (lib : Lib) (env : Env) (w : World)
    (city units : String) (e : String) :
    ((GetFromCache lib env w (cacheKey lib city units)).1 = none →
      (fetchFromAPI lib env (GetFromCache lib env w (cacheKey lib city units)).2
        city units).1 = .error e →
        (GetWeatherData lib env w city units).1 = (none, some e)
          ∧ (GetWeatherData lib env w city units).2.originFetches = w.originFetches + 1
          ∧ (GetWeatherData lib env w city units).2.setCacheCalls = w.setCacheCalls
          ∧ (GetWeatherData lib env w city units).2.redisWrites = w.redisWrites
          ∧ (GetWeatherData lib env w city units).2.redisClient = w.redisClient)
      ∧ ((GetWeatherData lib env w city units).1.2 = some e →
          (GetFromCache lib env w (cacheKey lib city units)).1 = none
            ∧ (fetchFromAPI lib env (GetFromCache lib env w (cacheKey lib city units)).2
                city units).1 = .error e) := by
  have hA := GetFromCache_frame lib env w (cacheKey lib city units)
  have hB := fetchFromAPI_frame lib env (GetFromCache lib env w (cacheKey lib city units)).2
    city units
  cases hget : GetFromCache lib env w (cacheKey lib city units) with
  | mk found wA =>
    rw [hget] at hA hB
    cases found with
    | some v =>
      constructor
      · intro h; cases h
      · intro h
        rw [GetWeatherData_hit lib env w wA city units v hget] at h
        cases h
    | none =>
      cases hfetch : fetchFromAPI lib env wA city units with
      | mk res wB =>
        rw [hfetch] at hB
        cases res with
        | error err =>
          rw [GetWeatherData_miss_error lib env w wA wB city units err hget hfetch]
          constructor
          · intro _ he
            cases he
            simp only at hA hB ⊢
            exact ⟨trivial, by omega, by omega, by omega, by rw [hB.1, hA.1]⟩
          · intro he
            cases he
            exact ⟨rfl, rfl⟩
        | ok v =>
          constructor
          · intro _ he; cases he
          · intro he
            rw [(GetWeatherData_miss_ok lib env w wA wB city units v hget hfetch).1] at he
            cases he

/-- An origin that answers 503 behind an empty cache: the error is returned after one fetch
and nothing is written. -/
theorem GetWeatherData_origin_failure_witness :
    (GetWeatherData sampleLib (downEnv 0) emptyWorld "Paris" "metric").1
        = (none, some "API error (status 503): unavailable")
      ∧ (GetWeatherData sampleLib (downEnv 0) emptyWorld "Paris" "metric").2.originFetches = 1
      ∧ (GetWeatherData sampleLib (downEnv 0) emptyWorld "Paris" "metric").2.setCacheCalls = 0 :=
  have h := (GetWeatherData_origin_failure sampleLib (downEnv 0) emptyWorld "Paris" "metric"
    "API error (status 503): unavailable").1 rfl rfl
  ⟨h.1, h.2.1, h.2.2.1⟩

/-- C10: on a cache miss, if the origin fetch succeeds with payload `v`, `GetWeatherData`
returns `(v, nil)`, whatever `SetCache` then returns: nil, the error of a failed encoding or
the error of a failed write. -/
theorem GetWeatherData_cache_write_best_effort (lib : Lib) (env : Env) (w : World)
    (city units : String) (v : WeatherAPIResponse)
    (hmiss : (GetFromCache lib env w (cacheKey lib city units)).1 = none)
    (hfetch : (fetchFromAPI lib env (GetFromCache lib env w (cacheKey lib city units)).2
      city units).1 = .ok v) :
    (GetWeatherData lib env w city units).1 = (some v, none) :=
  (GetWeatherData_miss_ok lib env w _ _ city units v (Prod.ext hmiss rfl)
    (Prod.ext hfetch rfl)).1

/-- A server that refuses the write, and a library whose encoding fails: `SetCache` returns
an error in both runs and the fetched payload is returned all the same. -/
theorem GetWeatherData_cache_write_best_effort_witness :
    ((SetCache sampleLib (readOnlyEnv 0) emptyWorld "weather:paris:metric"
        (samplePayload "Paris, France")).1 = some "failed to set cache: READONLY"
      ∧ (GetWeatherData sampleLib (readOnlyEnv 0) emptyWorld "Paris" "metric").1
          = (some (samplePayload "Paris, France"), none))
      ∧ ((SetCache failingMarshalLib (sampleEnv 0) emptyWorld "weather:paris:metric"
          (samplePayload "Paris, France")).1
            = some "failed to marshal cache data: json: unsupported value"
        ∧ (GetWeatherData failingMarshalLib (sampleEnv 0) emptyWorld "Paris" "metric").1
            = (some (samplePayload "Paris, France"), none)) :=
  ⟨⟨rfl, GetWeatherData_cache_write_best_effort sampleLib (readOnlyEnv 0) emptyWorld "Paris"
      "metric" (samplePayload "Paris, France") rfl rfl⟩,
    ⟨rfl, GetWeatherData_cache_write_best_effort failingMarshalLib (sampleEnv 0) emptyWorld
      "Paris" "metric" (samplePayload "Paris, France") rfl rfl⟩⟩

/-- The outcome of the origin fetch does not depend on the cache or on what was called
before. -/
theorem fetchFromAPI_fst (lib : Lib) (env : Env) (w w' : World) (city units : String) :
    (fetchFromAPI lib env w city units).1 = (fetchFromAPI lib env w' city units).1 := by
  unfold fetchFromAPI
  dsimp only
  repeat' split
  all_goals rfl

/-- After a miss `GetWeatherData` returns what the origin fetch returned. -/
theorem GetWeatherData_of_miss (lib : Lib) (env : Env) (w : World) (city units : String)
    (hmiss : (GetFromCache lib env w (cacheKey lib city units)).1 = none) :
    (GetWeatherData lib env w city units).1
      = match (fetchFromAPI lib env w city units).1 with
        | .ok v => (some v, none)
        | .error e => (none, some e) := by
  rw [fetchFromAPI_fst lib env w (GetFromCache lib env w (cacheKey lib city units)).2]
  cases hfetch : fetchFromAPI lib env (GetFromCache lib env w (cacheKey lib city units)).2
      city units with
  | mk res wB =>
    cases res with
    | error err =>
      rw [GetWeatherData_miss_error lib env w _ wB city units err (Prod.ext hmiss rfl) hfetch]
    | ok v =>
      rw [(GetWeatherData_miss_ok lib env w _ wB city units v (Prod.ext hmiss rfl) hfetch).1]

/-- C11: with the nil client, `GetFromCache` returns false for every key, `SetCache` returns
nil for every key and value and changes nothing on the side of the cache, and
`GetWeatherData` returns exactly what the origin fetch returns: the payload with a nil error
when the fetch succeeds, the error of the fetch when it fails. -/
theorem unavailable_cache_degrades (lib : Lib) (env : Env) (w : World)
    (hnil : w.redisClient = none) :
    (∀ key, (GetFromCache lib env w key).1 = none)
      ∧ (∀ key value, (SetCache lib env w key value).1 = none
          ∧ (SetCache lib env w key value).2.redisClient = none
          ∧ (SetCache lib env w key value).2.redisWrites = w.redisWrites)
      ∧ (∀ city units,
          (GetWeatherData lib env w city units).1
            = match (fetchFromAPI lib env w city units).1 with
              | .ok v => (some v, none)
              | .error e => (none, some e)) := by
  have hget : ∀ key, (GetFromCache lib env w key).1 = none := by
    intro key
    unfold GetFromCache
    simp only [emit_redisClient, hnil]
  refine ⟨hget, ?_, ?_⟩
  · intro key value
    unfold SetCache
    simp only [emit_redisClient, hnil, emit_redisWrites, Nat.add_zero, and_self]
  · intro city units
    exact GetWeatherData_of_miss lib env w city units (hget _)

/-- The nil client with a working origin, and with an origin that answers 503. -/
theorem unavailable_cache_degrades_witness :
    (GetFromCache sampleLib (sampleEnv 0) offlineWorld "weather:paris:metric").1 = none
      ∧ (SetCache sampleLib (sampleEnv 0) offlineWorld "weather:paris:metric"
          (samplePayload "Paris, France")).1 = none
      ∧ (GetWeatherData sampleLib (sampleEnv 0) offlineWorld "Paris" "metric").1
          = (some (samplePayload "Paris, France"), none)
      ∧ (GetWeatherData sampleLib (downEnv 0) offlineWorld "Paris" "metric").1
          = (none, some "API error (status 503): unavailable") :=
  have h := unavailable_cache_degrades sampleLib (sampleEnv 0) offlineWorld rfl
  have h' := unavailable_cache_degrades sampleLib (downEnv 0) offlineWorld rfl
  ⟨h.1 _, (h.2.1 _ _).1, h.2.2 "Paris" "metric", h'.2.2 "Paris" "metric"⟩

/-- C12: `GetFromCache` returns true with payload `v` exactly when the client is connected,
the read of the key succeeded with some bytes and the bytes decoded to `v`. With the nil
client, an absent or expired key, any other failure of the read, or bytes that do not
decode, it returns false; it has no error to return, it leaves the client as it was, and
`GetWeatherData` goes on to the origin as after any miss. -/
theorem GetFromCache_found_iff (lib : Lib) (env : Env) (w : World) (key : String) :
    (∀ v, (GetFromCache lib env w key).1 = some v ↔
        ∃ store val, w.redisClient = some store ∧ redisGet env store key = .value val
          ∧ lib.jsonUnmarshal val = .ok v)
      ∧ (w.redisClient = none → (GetFromCache lib env w key).1 = none)
      ∧ (∀ store, w.redisClient = some store → redisGet env store key = .redisNil →
          (GetFromCache lib env w key).1 = none)
      ∧ (∀ store err, w.redisClient = some store → redisGet env store key = .failed err →
          (GetFromCache lib env w key).1 = none)
      ∧ (∀ store val err, w.redisClient = some store → redisGet env store key = .value val →
          lib.jsonUnmarshal val = .error err → (GetFromCache lib env w key).1 = none)
      ∧ (GetFromCache lib env w key).2.redisClient = w.redisClient
      ∧ (∀ city units, key = cacheKey lib city units →
          (GetFromCache lib env w key).1 = none →
            (GetWeatherData lib env w city units).1
              = match (fetchFromAPI lib env w city units).1 with
                | .ok v => (some v, none)
                | .error e => (none, some e)) := by
  refine ⟨?_, ?_, ?_, ?_, ?_, (GetFromCache_frame lib env w key).1, ?_⟩
  · intro v
    unfold GetFromCache
    simp only [emit_redisClient]
    cases hc : w.redisClient with
    | none => simp
    | some store =>
      cases hg : redisGet env store key with
      | failed err => simp [hg]
      | redisNil => simp [hg]
      | value val =>
        cases hu : lib.jsonUnmarshal val with
        | error err => simp [hg, hu]
        | ok v' => simp [hg, hu]
  · intro hc
    unfold GetFromCache
    simp only [emit_redisClient, hc]
  · intro store hc hg
    unfold GetFromCache
    simp only [emit_redisClient, hc, hg]
  · intro store err hc hg
    unfold GetFromCache
    simp only [emit_redisClient, hc, hg]
  · intro store val err hc hg hu
    unfold GetFromCache
    simp only [emit_redisClient, hc, hg, hu]
  · intro city units hkey hmiss
    subst hkey
    exact GetWeatherData_of_miss lib env w city units hmiss

/-- A read that fails on a connected client: the lookup returns false and the payload of
the origin is returned. -/
theorem GetFromCache_found_iff_witness :
    (GetFromCache sampleLib { sampleEnv 0 with getFault := some "i/o timeout" } emptyWorld
        "weather:paris:metric").1 = none
      ∧ (GetWeatherData sampleLib { sampleEnv 0 with getFault := some "i/o timeout" } emptyWorld
          "Paris" "metric").1 = (some (samplePayload "Paris, France"), none) :=
  have h := GetFromCache_found_iff sampleLib { sampleEnv 0 with getFault := some "i/o timeout" }
    emptyWorld "weather:paris:metric"
  ⟨h.2.2.2.1 ∅ "i/o timeout" rfl rfl, h.2.2.2.2.2.2 "Paris" "metric" rfl rfl⟩

/-- C13, as stated, fails: with the nil client `DeleteCache` returns the error
"redis client not initialized", where `SetCache` returns nil. -/
theorem DeleteCache_nil_client_error :
    offlineWorld.redisClient = none
      ∧ (DeleteCache (sampleEnv 0) offlineWorld "weather:paris:metric").1
          = some "redis client not initialized"
      ∧ (SetCache sampleLib (sampleEnv 0) offlineWorld "weather:paris:metric"
          (samplePayload "Paris, France")).1 = none := by
  refine ⟨rfl, rfl, rfl⟩

/-- C13, amended: with the nil client `SetCache` returns nil for every key and value and
writes nothing, whereas `DeleteCache` returns the error "redis client not initialized" for
every key; neither of them changes anything on the side of the cache. -/
theorem nil_client_mutations (lib : Lib) (env : Env) (w : World) (key : String)
    (hnil : w.redisClient = none) :
    (∀ value, (SetCache lib env w key value).1 = none
        ∧ (SetCache lib env w key value).2.redisClient = none
        ∧ (SetCache lib env w key value).2.redisWrites = w.redisWrites)
      ∧ DeleteCache env w key = (some "redis client not initialized", w) := by
  constructor
  · intro value
    unfold SetCache
    simp only [emit_redisClient, hnil, emit_redisWrites, Nat.add_zero, and_self]
  · unfold DeleteCache
    simp only [hnil]

/-- The two operations on the nil client. -/
theorem nil_client_mutations_witness :
    (SetCache sampleLib (sampleEnv 0) offlineWorld "weather:paris:metric"
        (samplePayload "Paris, France")).1 = none
      ∧ (DeleteCache (sampleEnv 0) offlineWorld "weather:paris:metric").1
          = some "redis client not initialized" :=
  have h := nil_client_mutations sampleLib (sampleEnv 0) offlineWorld "weather:paris:metric" rfl
  ⟨(h.1 _).1, congrArg Prod.fst h.2⟩

/-- The first thing `GetWeatherData` does is the lookup of the derived key. -/
theorem GetWeatherData_trace_prefix (lib : Lib) (env : Env) (w : World) (city units : String) :
    ∃ rest, (GetWeatherData lib env w city units).2.trace
      = w.trace ++ Event.GetFromCache (cacheKey lib city units) :: rest := by
  have hget : ∃ rest, (GetFromCache lib env w (cacheKey lib city units)).2.trace
      = w.trace ++ Event.GetFromCache (cacheKey lib city units) :: rest := by
    unfold GetFromCache
    dsimp only
    repeat' split
    all_goals simp [World.emit]
  have hfetch : ∀ w1 : World, ∃ rest, (fetchFromAPI lib env w1 city units).2.trace
      = w1.trace ++ rest := by
    intro w1
    unfold fetchFromAPI
    dsimp only
    repeat' split
    all_goals simp [World.emit]
  have hset : ∀ (w2 : World) (v : WeatherAPIResponse), ∃ rest,
      (SetCache lib env w2 (cacheKey lib city units) v).2.trace = w2.trace ++ rest := by
    intro w2 v
    unfold SetCache
    dsimp only
    repeat' split
    all_goals simp [World.emit]
  obtain ⟨r1, h1⟩ := hget
  cases hg : GetFromCache lib env w (cacheKey lib city units) with
  | mk found wA =>
    rw [hg] at h1
    cases found with
    | some v =>
      rw [GetWeatherData_hit lib env w wA city units v hg]
      exact ⟨r1, h1⟩
    | none =>
      obtain ⟨r2, h2⟩ := hfetch wA
      cases hf : fetchFromAPI lib env wA city units with
      | mk res wB =>
        rw [hf] at h2
        cases res with
        | error err =>
          rw [GetWeatherData_miss_error lib env w wA wB city units err hg hf]
          exact ⟨r1 ++ r2, by simp only at h1 h2 ⊢; rw [h2, h1]; simp⟩
        | ok v =>
          obtain ⟨r3, h3⟩ := hset wB v
          unfold GetWeatherData
          rw [hg]; dsimp only
          rw [hf]; dsimp only
          cases hs : SetCache lib env wB (cacheKey lib city units) v with
          | mk res3 wC =>
            rw [hs] at h3
            simp only at h1 h2 h3
            cases res3 with
            | some err =>
              exact ⟨r1 ++ r2 ++ r3 ++ [Event.log ("Failed to cache data: " ++ err)], by
                simp [World.emit, h3, h2, h1]⟩
            | none => exact ⟨r1 ++ r2 ++ r3, by simp [h3, h2, h1]⟩

/-- C14: the key that `GetWeatherData` looks up is "weather:" followed by the lower-cased
city, ":" and the units, a function of the two parameters. The pair ("Paris", "metric") gives
"weather:paris:metric", and two requests whose cities have the same image under
`strings.ToLower` and whose units are equal give the same key. -/
theorem cacheKey_spec :
    (∀ (lib : Lib) (city units : String),
        cacheKey lib city units = "weather:" ++ lib.toLower city ++ ":" ++ units)
      ∧ (∀ (lib : Lib) (env : Env) (w : World) (city units : String),
          ∃ rest, (GetWeatherData lib env w city units).2.trace
            = w.trace
              ++ Event.GetFromCache ("weather:" ++ lib.toLower city ++ ":" ++ units) :: rest)
      ∧ cacheKey sampleLib "Paris" "metric" = "weather:paris:metric"
      ∧ (∀ (lib : Lib) (city1 city2 units1 units2 : String),
          lib.toLower city1 = lib.toLower city2 → units1 = units2 →
            cacheKey lib city1 units1 = cacheKey lib city2 units2) :=
  ⟨fun _ _ _ => rfl, fun lib env w city units => GetWeatherData_trace_prefix lib env w city units,
    rfl, fun lib city1 city2 units1 units2 hc hu => by unfold cacheKey; rw [hc, hu]⟩

/-- The cities "Paris", "PARIS" and "paris" with the units "metric": one key. -/
theorem cacheKey_spec_witness :
    cacheKey sampleLib "PARIS" "metric" = cacheKey sampleLib "Paris" "metric"
      ∧ cacheKey sampleLib "paris" "metric" = cacheKey sampleLib "Paris" "metric" :=
  ⟨cacheKey_spec.2.2.2 sampleLib "PARIS" "Paris" "metric" "metric" rfl rfl,
    cacheKey_spec.2.2.2 sampleLib "paris" "Paris" "metric" "metric" rfl rfl⟩

/-! ## The contract of the HTTP layer -/

/-- One call of `GetWeatherData` invokes the origin at most once. -/
theorem GetWeatherData_originFetches_le (lib : Lib) (env : Env) (w : World)
    (city units : String) :
    (GetWeatherData lib env w city units).2.originFetches ≤ w.originFetches + 1 := by
  have hA := GetFromCache_frame lib env w (cacheKey lib city units)
  cases hg : GetFromCache lib env w (cacheKey lib city units) with
  | mk found wA =>
    rw [hg] at hA
    cases found with
    | some v =>
      rw [GetWeatherData_hit lib env w wA city units v hg]
      simp only at hA ⊢
      omega
    | none =>
      have hB := fetchFromAPI_frame lib env wA city units
      cases hf : fetchFromAPI lib env wA city units with
      | mk res wB =>
        rw [hf] at hB
        cases res with
        | error err =>
          rw [GetWeatherData_miss_error lib env w wA wB city units err hg hf]
          simp only at hA hB ⊢
          omega
        | ok v =>
          rw [(GetWeatherData_miss_ok lib env w wA wB city units v hg hf).2.1]
          simp only at hA hB ⊢
          omega

/-- One request of `/api/weather` invokes the origin at most once. -/
theorem serveWeather_originFetches_le (lib : Lib) (env : Env) (now : Int) (s : Server)
    (req : Request) :
    (serveWeather lib env now s req).2.world.originFetches ≤ s.world.originFetches + 1 := by
  unfold serveWeather GetWeather
  dsimp only
  have h := GetWeatherData_originFetches_le lib env s.world req.city (req.units.getD "metric")
  repeat' split
  all_goals first
    | exact Nat.le_succ _
    | omega
    | simp_all only []

/-- A denied request is answered by the middleware alone. -/
theorem serveWeather_denied (lib : Lib) (env : Env) (now : Int) (s : Server) (req : Request)
    (h : (Allow s.rateLimiter now req.clientIP).1 = false) :
    serveWeather lib env now s req = (.tooManyRequests, s) := by
  have hst := Allow_false_state s.rateLimiter now req.clientIP h
  unfold serveWeather
  dsimp only
  cases hres : Allow s.rateLimiter now req.clientIP with
  | mk b rl =>
    rw [hres] at h hst
    simp only at h hst
    subst h hst
    rfl

/-- An admitted request is answered by the handler, on the limiter that `Allow` left. -/
theorem serveWeather_admitted (lib : Lib) (env : Env) (now : Int) (s : Server) (req : Request)
    (h : (Allow s.rateLimiter now req.clientIP).1 = true) :
    serveWeather lib env now s req
      = ((GetWeather lib env s.world req).1,
          { rateLimiter := (Allow s.rateLimiter now req.clientIP).2,
            world := (GetWeather lib env s.world req).2 }) := by
  unfold serveWeather
  dsimp only
  cases hres : Allow s.rateLimiter now req.clientIP with
  | mk b rl =>
    rw [hres] at h
    simp only at h
    subst h
    rfl

/-- Under limit 1, a client admitted at `now` is denied at any `now2` at which `now` is
still inside the window. -/
theorem Allow_denied_after_admitted (rl : RateLimiter) (ip : String) (now now2 : Int)
    (hlimit : rl.limit = 1) (hin : timeSub now2 now ≤ rl.window)
    (h : (Allow rl now ip).1 = true) :
    (Allow (Allow rl now ip).2 now2 ip).1 = false := by
  rw [Allow_fst, stored_Allow_true rl now ip h, Allow_window, Allow_limit, hlimit,
    validTimestamps_eq_filter, List.filter_append, List.length_append]
  have hnow : [now].filter (fun t => decide (timeSub now2 t ≤ rl.window)) = [now] := by
    simp [hin]
  rw [hnow]
  apply decide_eq_false
  simp only [List.length_singleton]
  omega

/-- C15: when `Allow(clientIP)` returns false, the request is answered 429 by the middleware
and nothing else runs: the world of the cache and of the origin is the one before the
request (no lookup, no fetch, no write), and the limiter is unchanged; when it returns true
the answer is the one of the handler `GetWeather`. Hence under limit 1, two requests of one
client, the second made while the first is still inside the window (`now2 - now <= window`),
invoke the origin at most once in all. -/
theorem denial_short_circuits (lib : Lib) (env : Env) (now : Int) (s : Server)
    (req : Request) :
    ((Allow s.rateLimiter now req.clientIP).1 = false →
        (serveWeather lib env now s req).1.status = 429
          ∧ (serveWeather lib env now s req).2.world = s.world
          ∧ (serveWeather lib env now s req).2.rateLimiter = s.rateLimiter)
      ∧ ((Allow s.rateLimiter now req.clientIP).1 = true →
          (serveWeather lib env now s req).1.status = (GetWeather lib env s.world req).1.status
            ∧ (serveWeather lib env now s req).2.world = (GetWeather lib env s.world req).2)
      ∧ (∀ (env2 : Env) (now2 : Int) (req2 : Request),
          s.rateLimiter.limit = 1 → 0 < s.rateLimiter.window →
          req2.clientIP = req.clientIP → now2 - now ≤ s.rateLimiter.window →
            (serveWeather lib env2 now2 (serveWeather lib env now s req).2 req2).2.world.originFetches
              ≤ s.world.originFetches + 1) := by
  refine ⟨?_, ?_, ?_⟩
  · intro h
    rw [serveWeather_denied lib env now s req h]
    exact ⟨rfl, rfl, rfl⟩
  · intro h
    rw [serveWeather_admitted lib env now s req h]
    exact ⟨rfl, rfl⟩
  · intro env2 now2 req2 hlimit hW hip hin
    cases h : (Allow s.rateLimiter now req.clientIP).1 with
    | false =>
      rw [serveWeather_denied lib env now s req h]
      exact serveWeather_originFetches_le lib env2 now2 s req2
    | true =>
      have hfirst := serveWeather_originFetches_le lib env now s req
      have hdenied : (Allow (serveWeather lib env now s req).2.rateLimiter now2
          req2.clientIP).1 = false := by
        rw [serveWeather_admitted lib env now s req h, hip]
        exact Allow_denied_after_admitted s.rateLimiter req.clientIP now now2 hlimit
          (timeSub_le_of_sub_le hW hin) h
      rw [serveWeather_denied lib env2 now2 _ req2 hdenied]
      exact hfirst

/-- Limit 1 and window 1000: the request of "10.0.0.1" at 0 is admitted and fetches from the
origin, its request at 500 is answered 429, and the origin was invoked once. -/
theorem denial_short_circuits_witness :
    (serveWeather sampleLib (sampleEnv 0) 0
        { rateLimiter := NewRateLimiter 1 1000, world := emptyWorld }
        { clientIP := "10.0.0.1", city := "Paris", units := none }).1.status = 200
      ∧ (serveWeather sampleLib (sampleEnv 0) 500
          (serveWeather sampleLib (sampleEnv 0) 0
            { rateLimiter := NewRateLimiter 1 1000, world := emptyWorld }
            { clientIP := "10.0.0.1", city := "Paris", units := none }).2
          { clientIP := "10.0.0.1", city := "Oslo", units := none }).1.status = 429
      ∧ (serveWeather sampleLib (sampleEnv 0) 500
          (serveWeather sampleLib (sampleEnv 0) 0
            { rateLimiter := NewRateLimiter 1 1000, world := emptyWorld }
            { clientIP := "10.0.0.1", city := "Paris", units := none }).2
          { clientIP := "10.0.0.1", city := "Oslo", units := none }).2.world.originFetches ≤ 1 :=
  have h := denial_short_circuits sampleLib (sampleEnv 0) 500
    (serveWeather sampleLib (sampleEnv 0) 0
      { rateLimiter := NewRateLimiter 1 1000, world := emptyWorld }
      { clientIP := "10.0.0.1", city := "Paris", units := none }).2
    { clientIP := "10.0.0.1", city := "Oslo", units := none }
  have h2 := (denial_short_circuits sampleLib (sampleEnv 0) 0
    { rateLimiter := NewRateLimiter 1 1000, world := emptyWorld }
    { clientIP := "10.0.0.1", city := "Paris", units := none }).2.2 (sampleEnv 0) 500
    { clientIP := "10.0.0.1", city := "Oslo", units := none } rfl (by decide) rfl (by decide)
  ⟨rfl, (h.1 (by decide)).1, h2⟩

/-! ## The store over an available backend -/

/-- C16, as stated, fails: it does not hold for every value. On a connected client of a
server whose writes and reads succeed, a value that `json.Marshal` rejects, as it does a
payload with a NaN field, makes `SetCache` return the marshal error before any write; nothing
is stored, and the `GetFromCache` of the same key that follows at once returns false. -/
theorem SetCache_marshal_error_then_miss :
    emptyWorld.redisClient = some ∅
      ∧ (sampleEnv 0).setFault = none
      ∧ (sampleEnv 0).getFault = none
      ∧ (SetCache unsupportedValueLib (sampleEnv 0) emptyWorld "weather:paris:metric"
          nanPayload).1 = some "failed to marshal cache data: json: unsupported value: NaN"
      ∧ (SetCache unsupportedValueLib (sampleEnv 0) emptyWorld "weather:paris:metric"
          nanPayload).2.redisClient = some ∅
      ∧ (SetCache unsupportedValueLib (sampleEnv 0) emptyWorld "weather:paris:metric"
          nanPayload).2.redisWrites = 0
      ∧ (GetFromCache unsupportedValueLib (sampleEnv 0)
          (SetCache unsupportedValueLib (sampleEnv 0) emptyWorld "weather:paris:metric"
            nanPayload).2 "weather:paris:metric").1 = none :=
  ⟨rfl, rfl, rfl, rfl, rfl, by decide, rfl⟩

/-- C16, amended: on a connected client whose write and read succeed, with a value `v` that
`json.Marshal` encodes to bytes that `json.Unmarshal` decodes back to `v`: `SetCache(key, v)`
returns nil, having sent one write that carries `cacheTTL`, twelve hours, and binds the key
until `now + cacheTTL`; a `GetFromCache(key)` made on the world it left at any clock reading
before that, the reading of the write included, returns true with `v`; and one made once the
TTL has elapsed returns false. -/
theorem SetCache_then_GetFromCache (lib : Lib) (env1 env2 : Env) (w : World) (store : Store)
    (key data : String) (v : WeatherAPIResponse)
    (hconn : w.redisClient = some store)
    (hset : env1.setFault = none)
    (hm : lib.jsonMarshal v = .ok data)
    (hu : lib.jsonUnmarshal data = .ok v) :
    (SetCache lib env1 w key v).1 = none
      ∧ (SetCache lib env1 w key v).2.trace
          = w.trace ++ [Event.SetCache key, Event.redisSet key data cacheTTL,
              Event.log ("💾 Cached data for key: " ++ key)]
      ∧ cacheTTL = 12 * (3600 * 1000000000)
      ∧ (SetCache lib env1 w key v).2.redisClient
          = some (store.insert key { data := data, expiresAt := env1.now + cacheTTL })
      ∧ (env2.getFault = none → env2.now < env1.now + cacheTTL →
          (GetFromCache lib env2 (SetCache lib env1 w key v).2 key).1 = some v)
      ∧ (env1.now + cacheTTL ≤ env2.now →
          (GetFromCache lib env2 (SetCache lib env1 w key v).2 key).1 = none) := by
  have hres : SetCache lib env1 w key v
      = (none,
          { redisClient :=
              some (store.insert key { data := data, expiresAt := env1.now + cacheTTL }),
            trace := w.trace ++ [Event.SetCache key, Event.redisSet key data cacheTTL,
              Event.log ("💾 Cached data for key: " ++ key)] }) := by
    unfold SetCache redisSet
    simp [emit_redisClient, hconn, hm, hset, World.emit]
  rw [hres]
  refine ⟨rfl, rfl, by decide, rfl, ?_, ?_⟩
  · intro hget hfresh
    exact GetFromCache_of_entry lib env2 _ _ key
      { data := data, expiresAt := env1.now + cacheTTL } v rfl (AList.lookup_insert _) hget
      hfresh hu
  · intro hlate
    unfold GetFromCache redisGet
    simp only [emit_redisClient, AList.lookup_insert]
    cases env2.getFault with
    | some err => rfl
    | none => simp only [if_neg (not_lt.mpr hlate)]

/-- A write at clock reading 0 on an empty server: found at the same reading and one
nanosecond before the twelve hours are over, not found at twelve hours. -/
theorem SetCache_then_GetFromCache_witness :
    (GetFromCache sampleLib (sampleEnv 0)
        (SetCache sampleLib (sampleEnv 0) emptyWorld "weather:paris:metric"
          (samplePayload "Paris, France")).2 "weather:paris:metric").1
        = some (samplePayload "Paris, France")
      ∧ (GetFromCache sampleLib (sampleEnv 43199999999999)
          (SetCache sampleLib (sampleEnv 0) emptyWorld "weather:paris:metric"
            (samplePayload "Paris, France")).2 "weather:paris:metric").1
          = some (samplePayload "Paris, France")
      ∧ (GetFromCache sampleLib (sampleEnv 43200000000000)
          (SetCache sampleLib (sampleEnv 0) emptyWorld "weather:paris:metric"
            (samplePayload "Paris, France")).2 "weather:paris:metric").1 = none :=
  ⟨(SetCache_then_GetFromCache sampleLib (sampleEnv 0) (sampleEnv 0) emptyWorld ∅
      "weather:paris:metric" "Paris, France" (samplePayload "Paris, France")
      rfl rfl rfl rfl).2.2.2.2.1 rfl (by decide),
    (SetCache_then_GetFromCache sampleLib (sampleEnv 0) (sampleEnv 43199999999999) emptyWorld ∅
      "weather:paris:metric" "Paris, France" (samplePayload "Paris, France")
      rfl rfl rfl rfl).2.2.2.2.1 rfl (by decide),
    (SetCache_then_GetFromCache sampleLib (sampleEnv 0) (sampleEnv 43200000000000) emptyWorld ∅
      "weather:paris:metric" "Paris, France" (samplePayload "Paris, France")
      rfl rfl rfl rfl).2.2.2.2.2 (by decide)⟩

/-! ## The cleanup pass -/

/-- C17: after `cleanup` at time `now`, a client is a key of the map exactly when it was one
before with at least one timestamp still inside the window (`now.Sub(t) <= window`); the
sequence of a remaining client is its previous sequence restricted to those timestamps, in
the same order; and no remaining sequence is empty. -/
theorem cleanup_spec (rl : RateLimiter) (now : Int) (ip : String) :
    (ip ∈ (cleanup rl now).visitors ↔
        ∃ ts, rl.visitors.lookup ip = some ts ∧ ∃ t ∈ ts, timeSub now t ≤ rl.window)
      ∧ (∀ l, (cleanup rl now).visitors.lookup ip = some l →
          l ≠ [] ∧ ∃ ts, rl.visitors.lookup ip = some ts
            ∧ l = ts.filter (fun t => decide (timeSub now t ≤ rl.window))) := by
  have hlook := lookup_cleanup rl now ip
  constructor
  · rw [← AList.lookup_isSome, hlook]
    cases hl : rl.visitors.lookup ip with
    | none => simp
    | some ts =>
      simp only [validTimestamps_eq_filter, List.length_eq_zero, Option.some.injEq,
        exists_eq_left']
      by_cases hempty : ts.filter (fun t => decide (timeSub now t ≤ rl.window)) = []
      · simp only [hempty, if_true, Option.isSome_none, Bool.false_eq_true, false_iff]
        rintro ⟨t, ht, hin⟩
        have : t ∈ ts.filter (fun t => decide (timeSub now t ≤ rl.window)) :=
          List.mem_filter.mpr ⟨ht, decide_eq_true hin⟩
        rw [hempty] at this
        cases this
      · simp only [hempty, if_false, Option.isSome_some, true_iff]
        obtain ⟨t, ht⟩ := List.exists_mem_of_ne_nil _ hempty
        rw [List.mem_filter] at ht
        exact ⟨t, ht.1, of_decide_eq_true ht.2⟩
  · intro l hl
    rw [hlook] at hl
    cases hts : rl.visitors.lookup ip with
    | none => rw [hts] at hl; cases hl
    | some ts =>
      rw [hts] at hl
      simp only at hl
      split_ifs at hl with h0
      cases hl
      refine ⟨fun hnil => h0 (by rw [hnil]; rfl), ts, rfl, validTimestamps_eq_filter _ _ _⟩

/-- Window 10, a client with the timestamps 0 and 5 and a client with the timestamp 1: the
cleanup at 12 leaves the first with the timestamp 5 and drops the second. -/
theorem cleanup_spec_witness :
    (cleanup (run (NewRateLimiter 2 10)
        [Call.allow 0 "A", Call.allow 1 "B", Call.allow 5 "A"]) 12).visitors.lookup "A"
        = some [5]
      ∧ "A" ∈ (cleanup (run (NewRateLimiter 2 10)
          [Call.allow 0 "A", Call.allow 1 "B", Call.allow 5 "A"]) 12).visitors
      ∧ "B" ∉ (cleanup (run (NewRateLimiter 2 10)
          [Call.allow 0 "A", Call.allow 1 "B", Call.allow 5 "A"]) 12).visitors :=
  have hA := cleanup_spec (run (NewRateLimiter 2 10)
    [Call.allow 0 "A", Call.allow 1 "B", Call.allow 5 "A"]) 12 "A"
  have hB := cleanup_spec (run (NewRateLimiter 2 10)
    [Call.allow 0 "A", Call.allow 1 "B", Call.allow 5 "A"]) 12 "B"
  have hmem : "A" ∈ (cleanup (run (NewRateLimiter 2 10)
      [Call.allow 0 "A", Call.allow 1 "B", Call.allow 5 "A"]) 12).visitors :=
    hA.1.mpr ⟨[0, 5], by decide, 5, by decide, by decide⟩
  ⟨by decide, hmem, fun hin => by
    obtain ⟨ts, hts, t, ht, hle⟩ := hB.1.mp hin
    have h1 : ts = [1] := by
      have : (run (NewRateLimiter 2 10)
          [Call.allow 0 "A", Call.allow 1 "B", Call.allow 5 "A"]).visitors.lookup "B"
          = some [1] := by decide
      rw [this] at hts
      exact (Option.some.inj hts).symm
    subst h1
    rw [List.mem_singleton] at ht
    subst ht
    revert hle
    decide⟩

/-- Pruning at `tc` and then at a later `ta` retains what pruning at `ta` alone retains. -/
theorem validTimestamps_validTimestamps (window tc ta : Int) (l : List Int) (h : tc ≤ ta) :
    validTimestamps window ta (validTimestamps window tc l) = validTimestamps window ta l := by
  simp only [validTimestamps_eq_filter, List.filter_filter]
  apply List.filter_congr
  intro x _
  by_cases hx : timeSub ta x ≤ window
  · have hx' : timeSub tc x ≤ window := le_trans (timeSub_mono h (le_refl x)) hx
    simp [hx, hx']
  · simp [hx]

/-- C18: for every limiter state `s`, client `c` and times `tc <= ta`, `Allow(c)` at `ta` on
the state that `cleanup` at `tc` produced returns the boolean that `Allow(c)` at `ta` returns
on `s` itself, and when the call is admitted the entry of `c` afterwards is the same in both
runs. -/
theorem cleanup_preserves_Allow (s : RateLimiter) (c : String) (tc ta : Int) (h : tc ≤ ta) :
    (Allow (cleanup s tc) ta c).1 = (Allow s ta c).1
      ∧ ((Allow s ta c).1 = true →
          (Allow (cleanup s tc) ta c).2.visitors.lookup c
            = (Allow s ta c).2.visitors.lookup c) := by
  have hvalid : validTimestamps (cleanup s tc).window ta (stored (cleanup s tc) c)
      = validTimestamps s.window ta (stored s c) := by
    rw [stored_cleanup, cleanup_window, validTimestamps_validTimestamps s.window tc ta _ h]
  have hfst : (Allow (cleanup s tc) ta c).1 = (Allow s ta c).1 := by
    rw [Allow_fst, Allow_fst, hvalid, cleanup_limit]
  refine ⟨hfst, fun hadm => ?_⟩
  rw [Allow_true_lookup s ta c hadm, Allow_true_lookup (cleanup s tc) ta c (hfst.trans hadm),
    hvalid]

/-- Window 10 and limit 2, a client admitted at 0 and 5: a cleanup at 12 prunes the
timestamp 0, and the call at 14 is admitted with the same entry either way. -/
theorem cleanup_preserves_Allow_witness :
    (Allow (cleanup (run (NewRateLimiter 2 10) [Call.allow 0 "A", Call.allow 5 "A"]) 12)
        14 "A").1
        = (Allow (run (NewRateLimiter 2 10) [Call.allow 0 "A", Call.allow 5 "A"]) 14 "A").1
      ∧ (Allow (cleanup (run (NewRateLimiter 2 10) [Call.allow 0 "A", Call.allow 5 "A"]) 12)
          14 "A").2.visitors.lookup "A" = some [5, 14] :=
  have h := cleanup_preserves_Allow
    (run (NewRateLimiter 2 10) [Call.allow 0 "A", Call.allow 5 "A"]) "A" 12 14 (by decide)
  ⟨h.1, (h.2 (by decide)).trans (by decide)⟩

/-! ## Reachable states of the limiter -/

/-- On a sequence in non-decreasing order, a filter whose test is kept by every later
element is the removal of the maximal prefix that fails the test. -/
theorem filter_eq_dropWhile_of_sorted (keep : Int → Bool) (l : List Int)
    (hsorted : l.Pairwise (· ≤ ·))
    (hkeep : ∀ x y, x ≤ y → keep x = true → keep y = true) :
    l.filter keep = l.dropWhile (fun t => !keep t) := by
  induction l with
  | nil => rfl
  | cons a l ih =>
    rw [List.pairwise_cons] at hsorted
    by_cases ha : keep a = true
    · have hall : ∀ x ∈ l, keep x = true := fun x hx => hkeep a x (hsorted.1 x hx) ha
      rw [List.filter_cons_of_pos ha, List.filter_eq_self.mpr hall,
        List.dropWhile_cons_of_neg (by simp [ha])]
    · rw [List.filter_cons_of_neg ha, List.dropWhile_cons_of_pos (by simpa using ha),
        ih hsorted.2]

theorem validTimestamps_eq_dropExpiredPrefix (window now : Int) (l : List Int)
    (hsorted : l.Pairwise (· ≤ ·)) :
    validTimestamps window now l = dropExpiredPrefix window now l := by
  rw [validTimestamps_eq_filter, dropExpiredPrefix]
  apply filter_eq_dropWhile_of_sorted _ _ hsorted
  intro x y hxy hx
  exact decide_eq_true (le_trans (timeSub_mono (le_refl now) hxy) (of_decide_eq_true hx))

/-- For a window inside the range of `time.Duration`, the test of the code fails exactly on
the timestamps older than `now - window`. -/
theorem dropExpiredPrefix_eq_prefixScan (window now : Int) (l : List Int)
    (hlo : minDuration ≤ window) (hhi : window < maxDuration) :
    dropExpiredPrefix window now l = prefixScan window now l := by
  unfold dropExpiredPrefix prefixScan
  congr 1
  funext t
  have h : timeSub now t ≤ window ↔ ¬ t < now - window := by
    unfold timeSub
    unfold maxDuration minDuration at *
    split_ifs <;> omega
  by_cases ht : t < now - window
  · simp [ht, h]
  · simp [ht, h]

theorem Chronological.preserved {rl : RateLimiter} {lo : Int} (h : Chronological rl lo)
    (a : Call) (hlo : lo ≤ a.time) : Chronological (step rl a) a.time := by
  cases a with
  | cleanup now =>
    simp only [Call.time] at hlo ⊢
    constructor
    · intro ip
      simp only [step]
      rw [stored_cleanup, validTimestamps_eq_filter]
      exact (h.sorted ip).sublist (List.filter_sublist _)
    · intro ip x hx
      simp only [step] at hx
      rw [stored_cleanup, validTimestamps_eq_filter] at hx
      exact le_trans (h.le_clock ip x (List.mem_filter.mp hx).1) hlo
  | allow now c =>
    simp only [Call.time] at hlo ⊢
    have hcase : ∀ ip, stored (step rl (Call.allow now c)) ip = stored rl ip
        ∨ stored (step rl (Call.allow now c)) ip
            = validTimestamps rl.window now (stored rl ip) ++ [now] := by
      intro ip
      simp only [step]
      by_cases hip : ip = c
      · subst hip
        cases hres : (Allow rl now ip).1 with
        | true => exact Or.inr (stored_Allow_true rl now ip hres)
        | false => rw [Allow_false_state rl now ip hres]; exact Or.inl rfl
      · exact Or.inl (stored_Allow_ne rl now c ip hip)
    constructor
    · intro ip
      rcases hcase ip with heq | heq
      · rw [heq]; exact h.sorted ip
      · rw [heq, validTimestamps_eq_filter, List.pairwise_append]
        refine ⟨(h.sorted ip).sublist (List.filter_sublist _), List.pairwise_singleton _ _, ?_⟩
        intro x hx y hy
        rw [List.mem_singleton] at hy
        rw [hy]
        exact le_trans (h.le_clock ip x (List.mem_filter.mp hx).1) hlo
    · intro ip x hx
      rcases hcase ip with heq | heq
      · rw [heq] at hx; exact le_trans (h.le_clock ip x hx) hlo
      · rw [heq, validTimestamps_eq_filter, List.mem_append] at hx
        rcases hx with hx | hx
        · exact le_trans (h.le_clock ip x (List.mem_filter.mp hx).1) hlo
        · rw [List.mem_singleton] at hx; rw [hx]

theorem Chronological.run_preserved (calls : List Call) :
    ∀ (rl : RateLimiter) (lo : Int), Chronological rl lo → NonDecreasing calls →
      (∀ a ∈ calls, lo ≤ a.time) → ∃ lo', Chronological (run rl calls) lo' := by
  induction calls with
  | nil => intro rl lo h _ _; exact ⟨lo, h⟩
  | cons a l ih =>
    intro rl lo h hmono hlo
    unfold NonDecreasing at hmono
    rw [List.map_cons, List.pairwise_cons] at hmono
    exact ih (step rl a) a.time (h.preserved a (hlo a (List.mem_cons_self a l))) hmono.2
      (fun b hb => hmono.1 b.time (List.mem_map_of_mem Call.time hb))

theorem Chronological.of_new (limit window : Int) (calls : List Call)
    (hmono : NonDecreasing calls) :
    ∃ lo, Chronological (run (NewRateLimiter limit window) calls) lo := by
  have hinit : ∀ lo, Chronological (NewRateLimiter limit window) lo := fun lo =>
    ⟨fun ip => by simp [stored, NewRateLimiter], fun ip x hx => by
      simp [stored, NewRateLimiter] at hx⟩
  cases calls with
  | nil => exact ⟨0, hinit 0⟩
  | cons a l =>
    refine Chronological.run_preserved (a :: l) _ a.time (hinit a.time) hmono ?_
    intro b hb
    unfold NonDecreasing at hmono
    rw [List.map_cons, List.pairwise_cons] at hmono
    rcases List.mem_cons.mp hb with hb | hb
    · rw [hb]
    · exact hmono.1 b.time (List.mem_map_of_mem Call.time hb)

/-- C19: in every state reached from an empty limiter by `Allow` and `cleanup` calls with
non-decreasing clock readings, the timestamps stored for a client are in non-decreasing
order, and the filter of `Allow` and `cleanup` over them yields, at any time `now`, the
sequence left by discarding the maximal prefix of expired timestamps; for a window inside
the range of `time.Duration` that is the prefix scan of the specification, which discards
from the front the timestamps older than `now - window`. -/
theorem stored_chronological (limit window : Int) (calls : List Call) (c : String) (now : Int)
    (hmono : NonDecreasing calls) :
    (stored (run (NewRateLimiter limit window) calls) c).Pairwise (· ≤ ·)
      ∧ validTimestamps window now (stored (run (NewRateLimiter limit window) calls) c)
          = dropExpiredPrefix window now (stored (run (NewRateLimiter limit window) calls) c)
      ∧ (minDuration ≤ window → window < maxDuration →
          validTimestamps window now (stored (run (NewRateLimiter limit window) calls) c)
            = prefixScan window now (stored (run (NewRateLimiter limit window) calls) c)) := by
  obtain ⟨lo, h⟩ := Chronological.of_new limit window calls hmono
  have hsorted := h.sorted c
  have heq := validTimestamps_eq_dropExpiredPrefix window now _ hsorted
  exact ⟨hsorted, heq, fun hlo hhi =>
    heq.trans (dropExpiredPrefix_eq_prefixScan window now _ hlo hhi)⟩

/-- Limit 3 and window 10, a client admitted at 0, 4 and 8: at time 12 the filter and the
two prefix scans leave the sequence 4, 8. -/
theorem stored_chronological_witness :
    stored (run (NewRateLimiter 3 10) [Call.allow 0 "A", Call.allow 4 "A", Call.allow 8 "A"])
        "A" = [0, 4, 8]
      ∧ validTimestamps 10 12 [0, 4, 8] = [4, 8]
      ∧ validTimestamps 10 12
          (stored (run (NewRateLimiter 3 10)
            [Call.allow 0 "A", Call.allow 4 "A", Call.allow 8 "A"]) "A")
          = prefixScan 10 12
            (stored (run (NewRateLimiter 3 10)
              [Call.allow 0 "A", Call.allow 4 "A", Call.allow 8 "A"]) "A") :=
  ⟨by decide, by decide,
    (stored_chronological 3 10 [Call.allow 0 "A", Call.allow 4 "A", Call.allow 8 "A"] "A" 12
      (by decide)).2.2 (by decide) (by decide)⟩

theorem WithinLimit.step_preserved {rl : RateLimiter} (h : WithinLimit rl) (a : Call) :
    WithinLimit (step rl a) := by
  intro ip l hl
  cases a with
  | cleanup now =>
    simp only [step] at hl ⊢
    rw [lookup_cleanup] at hl
    cases hts : rl.visitors.lookup ip with
    | none => rw [hts] at hl; cases hl
    | some ts =>
      rw [hts] at hl
      simp only at hl
      split_ifs at hl with h0
      cases hl
      have hle : (validTimestamps rl.window now ts).length ≤ ts.length := by
        rw [validTimestamps_eq_filter]; exact List.length_filter_le _ _
      have hts' := h ip ts hts
      rw [cleanup_limit]
      omega
  | allow now c =>
    simp only [step] at hl ⊢
    rw [Allow_limit]
    cases hres : (Allow rl now c).1 with
    | false =>
      rw [Allow_false_state rl now c hres] at hl
      exact h ip l hl
    | true =>
      by_cases hip : ip = c
      · subst hip
        rw [Allow_true_lookup rl now ip hres] at hl
        cases hl
        have hlt := Allow_fst rl now ip
        rw [hres] at hlt
        have hlt' := of_decide_eq_true hlt.symm
        rw [List.length_append, List.length_singleton]
        refine ⟨by omega, ?_⟩
        push_cast
        omega
      · rw [Allow_lookup_ne rl now c ip hip] at hl
        exact h ip l hl

theorem WithinLimit.run_all (calls : List Call) :
    ∀ rl : RateLimiter, WithinLimit rl → WithinLimit (run rl calls) := by
  induction calls with
  | nil => intro rl h; exact h
  | cons a l ih => intro rl h; exact ih (step rl a) (h.step_preserved a)

/-- C20: in every state reached from the empty map of `NewRateLimiter` by `Allow` and
`cleanup` calls, every client that is a key of the map has a stored sequence of at least one
and at most `limit` timestamps. -/
theorem stored_length_bounds (limit window : Int) (calls : List Call) (ip : String)
    (l : List Int)
    (h : (run (NewRateLimiter limit window) calls).visitors.lookup ip = some l) :
    1 ≤ l.length ∧ (l.length : Int) ≤ limit := by
  have hinit : WithinLimit (NewRateLimiter limit window) := by
    intro k l' hl'
    simp [NewRateLimiter] at hl'
  have hrun := WithinLimit.run_all calls _ hinit ip l h
  rw [run_limit] at hrun
  exact hrun

/-- Limit 2 and window 10: after admissions at 0 and 5, a denied call at 6 and a cleanup at
12, the client holds one timestamp. -/
theorem stored_length_bounds_witness :
    (run (NewRateLimiter 2 10)
        [Call.allow 0 "A", Call.allow 5 "A", Call.allow 6 "A", Call.cleanup 12]).visitors.lookup
        "A" = some [5]
      ∧ 1 ≤ [(5 : Int)].length ∧ (([(5 : Int)].length : Nat) : Int) ≤ 2 :=
  ⟨by decide, stored_length_bounds 2 10
    [Call.allow 0 "A", Call.allow 5 "A", Call.allow 6 "A", Call.cleanup 12] "A" [5]
    (by decide)⟩

/-! ## Separation of requests by the cache key -/

/-- Two lists that agree once each is followed by the separator and a tail are equal part by
part, when the separator does not occur before it. -/
theorem split_at_first {x : Char} :
    ∀ (a c b d : List Char), x ∉ a → x ∉ c → a ++ x :: b = c ++ x :: d → a = c ∧ b = d := by
  intro a
  induction a with
  | nil =>
    intro c b d _ hc h
    cases c with
    | nil => exact ⟨rfl, by simpa using h⟩
    | cons y c =>
      simp only [List.nil_append, List.cons_append, List.cons.injEq] at h
      exact absurd (h.1 ▸ List.mem_cons_self y c) hc
  | cons y a ih =>
    intro c b d ha hc h
    cases c with
    | nil =>
      simp only [List.nil_append, List.cons_append, List.cons.injEq] at h
      exact absurd (h.1 ▸ List.mem_cons_self y a) ha
    | cons z c =>
      simp only [List.cons_append, List.cons.injEq] at h
      obtain ⟨hac, hbd⟩ := ih c b d (fun hx => ha (List.mem_cons_of_mem y hx))
        (fun hx => hc (List.mem_cons_of_mem z hx)) h.2
      exact ⟨by rw [h.1, hac], hbd⟩

/-- The same when the separator does not occur after it. -/
theorem split_at_last {x : Char} (a c b d : List Char) (hb : x ∉ b) (hd : x ∉ d)
    (h : a ++ x :: b = c ++ x :: d) : a = c ∧ b = d := by
  have hrev : b.reverse ++ x :: a.reverse = d.reverse ++ x :: c.reverse := by
    have := congrArg List.reverse h
    simpa using this
  obtain ⟨h1, h2⟩ := split_at_first b.reverse d.reverse a.reverse c.reverse
    (by simpa using hb) (by simpa using hd) hrev
  exact ⟨List.reverse_injective h2, List.reverse_injective h1⟩

/-- Equal keys have equal parts after the prefix "weather:". -/
theorem cacheKey_data (lib : Lib) (city1 city2 units1 units2 : String)
    (hkey : cacheKey lib city1 units1 = cacheKey lib city2 units2) :
    (lib.toLower city1).data ++ ':' :: units1.data
      = (lib.toLower city2).data ++ ':' :: units2.data := by
  have h := congrArg String.data hkey
  simp only [cacheKey, String.data_append, List.append_assoc] at h
  have h' := List.append_cancel_left h
  simpa using h'

/-- C21, as stated, fails: the city "lyon:fr" with the units "metric" and the city "lyon" with
the units "fr:metric" derive the one key "weather:lyon:fr:metric", though the lower-cased
cities differ and the units differ. The handler passes both parameters on as received, so
after the first request has been fetched and stored, the second is answered from the cache
with the payload of the first, without a fetch, where the origin would have answered it with
another payload. -/
theorem cacheKey_collision :
    cacheKey colonEscapingLib "lyon:fr" "metric" = "weather:lyon:fr:metric"
      ∧ cacheKey colonEscapingLib "lyon" "fr:metric" = "weather:lyon:fr:metric"
      ∧ colonEscapingLib.toLower "lyon:fr" ≠ colonEscapingLib.toLower "lyon"
      ∧ "metric" ≠ "fr:metric"
      ∧ (GetWeather colonEscapingLib (echoEnv 0) emptyWorld
          { clientIP := "10.0.0.1", city := "lyon:fr", units := some "metric" }).1.status = 200
      ∧ (GetWeatherData colonEscapingLib (echoEnv 0) emptyWorld "lyon:fr" "metric").1
          = (some (samplePayload
              ("https://weather.visualcrossing.com/VisualCrossingWebServices/rest/services/"
                ++ "timeline/lyon%3Afr?unitGroup=metric&key=k&contentType=json")), none)
      ∧ (GetWeatherData colonEscapingLib (echoEnv 5)
          (GetWeather colonEscapingLib (echoEnv 0) emptyWorld
            { clientIP := "10.0.0.1", city := "lyon:fr", units := some "metric" }).2
          "lyon" "fr:metric").1
          = (some (samplePayload
              ("https://weather.visualcrossing.com/VisualCrossingWebServices/rest/services/"
                ++ "timeline/lyon%3Afr?unitGroup=metric&key=k&contentType=json")), none)
      ∧ (GetWeather colonEscapingLib (echoEnv 5)
          (GetWeather colonEscapingLib (echoEnv 0) emptyWorld
            { clientIP := "10.0.0.1", city := "lyon:fr", units := some "metric" }).2
          { clientIP := "10.0.0.2", city := "lyon", units := some "fr:metric" }).2.originFetches
          = 1
      ∧ (fetchFromAPI colonEscapingLib (echoEnv 5) emptyWorld "lyon" "fr:metric").1
          = .ok (samplePayload
              ("https://weather.visualcrossing.com/VisualCrossingWebServices/rest/services/"
                ++ "timeline/lyon?unitGroup=metric&key=k&contentType=json")) :=
  ⟨by decide, by decide, by decide, by decide, rfl, rfl, rfl, by decide, rfl⟩

/-- C21, amended: if `GetWeatherData` derives the same cache key for `(c1, u1)` and
`(c2, u2)`, and neither units value contains a colon (as with the values "metric" and
"imperial" that the handler documents) or neither lower-cased city contains one, then the
lower-cased cities are equal and the units are equal. -/
theorem cacheKey_separates (lib : Lib) (city1 city2 units1 units2 : String)
    (hkey : cacheKey lib city1 units1 = cacheKey lib city2 units2)
    (hsep : (':' ∉ units1.data ∧ ':' ∉ units2.data)
      ∨ (':' ∉ (lib.toLower city1).data ∧ ':' ∉ (lib.toLower city2).data)) :
    lib.toLower city1 = lib.toLower city2 ∧ units1 = units2 := by
  have hdata := cacheKey_data lib city1 city2 units1 units2 hkey
  rcases hsep with ⟨h1, h2⟩ | ⟨h1, h2⟩
  · obtain ⟨hc, hu⟩ := split_at_last _ _ _ _ h1 h2 hdata
    exact ⟨String.ext hc, String.ext hu⟩
  · obtain ⟨hc, hu⟩ := split_at_first _ _ _ _ h1 h2 hdata
    exact ⟨String.ext hc, String.ext hu⟩

/-- The cities "Paris" and "PARIS" with the units "metric": one key, one lower-cased city. -/
theorem cacheKey_separates_witness :
    sampleLib.toLower "Paris" = sampleLib.toLower "PARIS" ∧ "metric" = "metric" :=
  cacheKey_separates sampleLib "Paris" "PARIS" "metric" "metric" (by decide)
    (Or.inl ⟨by decide, by decide⟩)

end WeatherApi
